import Mathlib

/-!
# clickhouse-bulk: the bootstrap and drain glue of `main.go`

A shallow embedding of `src/main.go`: the `config` record, `SafeQuit`, the
signal-handling goroutine and `main`.  The collector, the sender, the dumper
and the HTTP server are collaborators whose code is elsewhere; what `main.go`
does with them is recorded as a trace of calls (`Event`), and what they answer
is supplied by the environment (`Collab`, `Sig`, `Env`).  After the `go`
statement the process has two goroutines; their steps are interleaved by a
schedule that the environment supplies as well (`interleave`).
-/

namespace ClickhouseBulk

/-- The `config` struct of `main.go` (Go `int` fields as integers). -/
structure config where
  Port : Int
  ClickhouseServers : List String
  ClickhouseDownTimeout : Int
  FlushCount : Int
  FlushInterval : Int
  DumpDir : String
  Debug : Bool
  deriving DecidableEq, Repr

/-- Go's `time.Second`, in nanoseconds (the unit of `time.Duration`). -/
def Second : Nat := 1000000000

/-- A `context.Context` carrying a deadline (clock reading in nanoseconds). -/
structure Context where
  deadline : Nat
  deriving DecidableEq, Repr

/-- The result of `context.WithTimeout(context.Background(), d)` called at clock reading `now`. -/
def WithTimeout (now d : Nat) : Context := ⟨now + d⟩

/-- A context with a deadline is expired (its `Done` channel is closed) from the deadline on. -/
def Context.expiredAt (ctx : Context) (t : Nat) : Bool := decide (ctx.deadline ≤ t)

/-- The calls `main.go` makes on its collaborators and on the runtime, in program order.
`main` owns exactly one dumper, one sender, one collector and one server, so the
receiver of a call is not recorded. -/
inductive Event where
  /-- The call `log.SetOutput(os.Stdout)` -/
  | SetLogOutput
  /-- The call `flag.Parse()` -/
  | FlagParse
  /-- The call `log.Printf("clickhouse-bulk ver. ...")` -/
  | LogVersion
  /-- The call `env.Parse(&cnf)` -/
  | EnvParse
  /-- The call `log.Fatalf("%s", err)` inside `failOnError` -/
  | LogFatal (err : String)
  /-- The call `new(FileDumper)` -/
  | NewFileDumper
  /-- The assignment `dumper.Path = path` -/
  | SetDumperPath (path : String)
  /-- The call `NewClickhouse(downTimeout)`; the constructor is declared outside
  `main.go`, its parameter is the per-endpoint down timeout of the specification -/
  | NewClickhouse (downTimeout : Int)
  /-- The assignment `sender.Dumper = dumper` -/
  | SetSenderDumper
  /-- The call `sender.AddServer(url)` -/
  | AddServer (url : String)
  /-- The call `NewCollector(sender, count, interval)`; the constructor is declared
  outside `main.go`, its parameters are named in the order the specification gives:
  the sender, the flush-count threshold, the flush interval -/
  | NewCollector (count : Int) (interval : Int)
  /-- The call `signal.Notify(signals, syscall.SIGINT, syscall.SIGTERM)` -/
  | SignalNotify
  /-- The call `InitServer(listen, collect, debug)` -/
  | InitServer (listen : String) (debug : Bool)
  /-- The call `context.WithTimeout(context.Background(), 5*time.Second)` -/
  | MakeContext (ctx : Context)
  /-- The statement `go func() { ... }()` -/
  | GoHandler
  /-- The call `srv.Start()` begins -/
  | SrvStart
  /-- The call `srv.Start()` returned `err` (`none` is `nil`) -/
  | StartReturned (err : Option String)
  /-- The call `log.Printf("ListenAndServe: ...")` -/
  | LogListenAndServe (err : String)
  /-- The deferred call `cancel()` -/
  | Cancel
  /-- The receive `<-signals` delivered a signal at clock reading `t` -/
  | Signal (t : Nat)
  /-- The call `log.Printf("STOP signal")` -/
  | LogStop
  /-- The call `srv.Shutdown(ctx)`, made at clock reading `t` -/
  | Shutdown (ctx : Context) (t : Nat)
  /-- The call `log.Printf("Shutdown error ...")` -/
  | LogShutdownError (err : String)
  /-- The call `collect.FlushAll()` -/
  | FlushAll
  /-- The call `sender.Len()` returned `count` -/
  | SenderLen (count : Int)
  /-- The call `log.Printf("Sending %+v tables", count)` -/
  | LogSending (count : Int)
  /-- The call `sender.Empty()` returned `b` -/
  | SenderEmpty (b : Bool)
  /-- The call `collect.Empty()` returned `b` -/
  | CollectEmpty (b : Bool)
  /-- The call `collect.WaitFlush()` -/
  | WaitFlush
  /-- The call `os.Exit(code)` -/
  | Exit (code : Nat)
  deriving DecidableEq, Repr

/-- The behaviour of the collector and the sender as `SafeQuit` sees it: every call
may change the state of the pair, `Len` and the two `Empty` answer from it, and a
`WaitFlush` call either returns (`some`) or blocks for ever (`none`). -/
structure Collab (σ : Type) where
  FlushAll : σ → σ
  Len : σ → Int × σ
  SenderEmpty : σ → Bool × σ
  CollectEmpty : σ → Bool × σ
  WaitFlush : σ → Option σ

/-- How far a run of `SafeQuit` (or of its loop) got. -/
inductive Status (σ : Type) where
  /-- The run returned, leaving the collaborators in state `s` -/
  | returned (s : σ)
  /-- A `WaitFlush` call never returns -/
  | blocked
  /-- The loop is still polling after the allotted number of loop tests -/
  | outOfFuel (s : σ)
  deriving DecidableEq, Repr

/-- The loop `for !sender.Empty() && !collect.Empty() { collect.WaitFlush() }`.
`fuel` bounds the number of loop tests.  `&&` short-circuits: `collect.Empty()` is
called only when `sender.Empty()` answered false. -/
def pollLoop {σ : Type} (w : Collab σ) : Nat → σ → List Event × Status σ
  | 0, s => ([], Status.outOfFuel s)
  | fuel + 1, s =>
    let se := w.SenderEmpty s
    if se.1 then ([Event.SenderEmpty true], Status.returned se.2)
    else
      let ce := w.CollectEmpty se.2
      if ce.1 then ([Event.SenderEmpty false, Event.CollectEmpty true], Status.returned ce.2)
      else
        match w.WaitFlush ce.2 with
        | none =>
          ([Event.SenderEmpty false, Event.CollectEmpty false, Event.WaitFlush], Status.blocked)
        | some s3 =>
          let r := pollLoop w fuel s3
          (Event.SenderEmpty false :: Event.CollectEmpty false :: Event.WaitFlush :: r.1, r.2)

/-- The events of `if count := sender.Len(); count > 0 { log.Printf(...) }`. -/
def lenEvents (count : Int) : List Event :=
  if count > 0 then [Event.SenderLen count, Event.LogSending count] else [Event.SenderLen count]

/-- The call `SafeQuit(collect, sender)`. -/
def SafeQuit {σ : Type} (w : Collab σ) (fuel : Nat) (s : σ) : List Event × Status σ :=
  let s1 := w.FlushAll s
  let cnt := w.Len s1
  let r := pollLoop w fuel cnt.2
  match r.2 with
  | Status.returned s3 =>
    match w.WaitFlush s3 with
    | some s4 =>
      (Event.FlushAll :: (lenEvents cnt.1 ++ r.1 ++ [Event.WaitFlush]), Status.returned s4)
    | none =>
      (Event.FlushAll :: (lenEvents cnt.1 ++ r.1 ++ [Event.WaitFlush]), Status.blocked)
  | Status.blocked => (Event.FlushAll :: (lenEvents cnt.1 ++ r.1), Status.blocked)
  | Status.outOfFuel s3 => (Event.FlushAll :: (lenEvents cnt.1 ++ r.1), Status.outOfFuel s3)

/-- How a goroutine, or the whole process, stands at the end of a trace. -/
inductive Outcome where
  /-- The process called `os.Exit(code)` -/
  | exited (code : Nat)
  /-- The function `main` returned (exit status 0) -/
  | returned
  /-- The function `main` is inside `srv.Start()`, which does not return -/
  | serving
  /-- A `WaitFlush` call never returns -/
  | blocked
  /-- The loop of `SafeQuit` is still polling -/
  | outOfFuel
  /-- The process has not ended at the end of the schedule -/
  | running
  deriving DecidableEq, Repr

/-- The outcome of `SafeQuit(collect, sender); os.Exit(1)`. -/
def quitOutcome {σ : Type} : Status σ → List Event × Outcome
  | Status.returned _ => ([Event.Exit 1], Outcome.exited 1)
  | Status.blocked => ([], Outcome.blocked)
  | Status.outOfFuel _ => ([], Outcome.outOfFuel)

/-- The statements `SafeQuit(collect, sender); os.Exit(1)` common to both error branches. -/
def quitAndExit {σ : Type} (w : Collab σ) (fuel : Nat) (s : σ) : List Event × Outcome :=
  let q := SafeQuit w fuel s
  (q.1 ++ (quitOutcome q.2).1, (quitOutcome q.2).2)

/-- A signal as the handler goroutine meets it: received at clock reading `received`,
`srv.Shutdown(ctx)` called `delay` later and answering `shutdownErr` (`none` is `nil`). -/
structure Sig where
  received : Nat
  delay : Nat
  shutdownErr : Option String
  deriving DecidableEq, Repr

/-- Either the goroutine goes on (collaborators in state `s`) or the process has an outcome. -/
inductive Flow (σ : Type) where
  | next (s : σ)
  | halt (o : Outcome)

/-- The statements of the handler's loop body up to and including `srv.Shutdown(ctx)`. -/
def sigHead (ctx : Context) (sg : Sig) : List Event :=
  [Event.Signal sg.received, Event.LogStop, Event.Shutdown ctx (sg.received + sg.delay)]

/-- The body of the `for` loop of the handler goroutine, for one signal. -/
def handlerBody {σ : Type} (w : Collab σ) (fuel : Nat) (ctx : Context) (sg : Sig) (s : σ) :
    List Event × Flow σ :=
  match sg.shutdownErr with
  | none => (sigHead ctx sg, Flow.next s)
  | some err =>
    let q := quitAndExit w fuel s
    (sigHead ctx sg ++ Event.LogShutdownError err :: q.1, Flow.halt q.2)

/-- The handler goroutine `go func() { for { ... } }()` fed with the signals `sigs`. -/
def handlerLoop {σ : Type} (w : Collab σ) (fuel : Nat) (ctx : Context) :
    List Sig → σ → List Event × Flow σ
  | [], s => ([], Flow.next s)
  | sg :: rest, s =>
    match handlerBody w fuel ctx sg s with
    | (tr, Flow.next s1) =>
      let r := handlerLoop w fuel ctx rest s1
      (tr ++ r.1, r.2)
    | (tr, Flow.halt o) => (tr, Flow.halt o)

/-- What the environment supplies to one execution of `main`: `flag.Arg(0)`, the
result of `env.Parse(&cnf)`, the clock reading when `main` creates the shutdown
context, the signals the handler goroutine handles first (through their call of
`srv.Shutdown`, up to the first failing one) before `main` takes its next step,
whether and how `srv.Start()` returns (`none`: it does not return), the signals that
arrive later, and the order in which the two goroutines take their further steps
(`true`: the goroutine of `main`, `false`: the handler goroutine). -/
structure Env where
  arg0 : String
  parse : Except String config
  now : Nat
  signals : List Sig
  start : Option (Option String)
  late : List Sig
  schedule : List Bool

/-- The construction part of `main`, from `new(FileDumper)` to the `go` statement;
until then `main` is the only goroutine. -/
def startup (cnf : config) (now : Nat) : List Event :=
  [Event.NewFileDumper, Event.SetDumperPath cnf.DumpDir,
    Event.NewClickhouse cnf.ClickhouseDownTimeout, Event.SetSenderDumper]
  ++ cnf.ClickhouseServers.map Event.AddServer
  ++ [Event.NewCollector cnf.FlushCount cnf.FlushInterval, Event.SignalNotify,
    Event.InitServer (":" ++ toString cnf.Port) cnf.Debug,
    Event.MakeContext (WithTimeout now (5 * Second)), Event.GoHandler]

/-- The end of `main`: `err = srv.Start()` returned `err`. -/
def afterStart {σ : Type} (w : Collab σ) (fuel : Nat) (err : Option String) (s : σ) :
    List Event × Outcome :=
  match err with
  | none => ([Event.StartReturned none, Event.Cancel], Outcome.returned)
  | some e =>
    let q := quitAndExit w fuel s
    (Event.StartReturned (some e) :: Event.LogListenAndServe e :: q.1, q.2)

/-- The statements of the goroutine of `main` after the `go` statement: the call of
`srv.Start()` and, when it returns, the end of `main`. -/
def mainScript {σ : Type} (w : Collab σ) (fuel : Nat) (start : Option (Option String))
    (s : σ) : List Event × Outcome :=
  match start with
  | none => ([Event.SrvStart], Outcome.serving)
  | some err =>
    let a := afterStart w fuel err s
    (Event.SrvStart :: a.1, a.2)

/-- The status of an `os.Exit` call. -/
def Event.exitCode : Event → Option Nat
  | Event.Exit c => some c
  | _ => none

/-- The events of the handler goroutine for the signals it handles first: each signal
through its call of `srv.Shutdown`, up to and including the first one whose
`srv.Shutdown` fails. -/
def early (ctx : Context) : List Sig → List Event
  | [] => []
  | sg :: rest =>
    match sg.shutdownErr with
    | none => sigHead ctx sg ++ early ctx rest
    | some _ => sigHead ctx sg

/-- The two goroutines side by side: `h` and `m` are the events the handler
goroutine and the goroutine of `main` still have to perform, the schedule says who
takes the next step (`true`: `main`), and a goroutine with nothing left to do (it
waits for a signal, is inside `srv.Start()`, inside a `WaitFlush` that does not
return, or has used up its loop tests) lets its turn pass.  An `os.Exit` ends the
process at once, and so does the return of `main` after its last statement (`ret`
tells whether `main` returns there). -/
def interleave (ret : Bool) : List Bool → List Event → List Event → List Event × Outcome
  | [], _, _ => ([], Outcome.running)
  | true :: sch, h, [] => interleave ret sch h []
  | true :: sch, h, ev :: m =>
    match ev.exitCode with
    | some c => ([ev], Outcome.exited c)
    | none =>
      if m.isEmpty && ret then ([ev], Outcome.returned)
      else
        let r := interleave ret sch h m
        (ev :: r.1, r.2)
  | false :: sch, [], m => interleave ret sch [] m
  | false :: sch, ev :: h, m =>
    match ev.exitCode with
    | some c => ([ev], Outcome.exited c)
    | none =>
      let r := interleave ret sch h m
      (ev :: r.1, r.2)

/-- The part of `main` after configuration parsing succeeded with `cnf`: the
construction events, then the handler goroutine and the goroutine of `main` side by
side.  The handler goroutine runs `handlerLoop` over all the signals, the goroutine
of `main` runs `mainScript`; the handler first takes the steps of `early` for
`e.signals`, then the two take their steps as `e.schedule` says.  The answers a
goroutine gets from the shared collector and sender depend on what the other one
did in between, so each goroutine starts from a state of its own (`sh`, `sm`):
every sequence of answers to either goroutine is covered. -/
def serve {σ : Type} (w : Collab σ) (fuel : Nat) (cnf : config) (e : Env) (sh sm : σ) :
    List Event × Outcome :=
  let h := handlerLoop w fuel (WithTimeout e.now (5 * Second)) (e.signals ++ e.late) sh
  let m := mainScript w fuel e.start sm
  let r := interleave (decide (m.2 = Outcome.returned))
    (List.replicate (early (WithTimeout e.now (5 * Second)) e.signals).length false ++
      e.schedule) h.1 m.1
  (startup cnf e.now ++ r.1, r.2)

/-- The function `failOnError(err)`: `log.Fatalf` prints the error and exits with
status 1; nothing happens when `err` is `nil`. -/
def failOnError (err : Option String) : List Event :=
  match err with
  | none => []
  | some msg => [Event.LogFatal msg, Event.Exit 1]

/-- The function `main`: the process, with both of its goroutines. -/
def main {σ : Type} (w : Collab σ) (fuel : Nat) (e : Env) (sh sm : σ) :
    List Event × Outcome :=
  if e.arg0 = "version" then
    ([Event.SetLogOutput, Event.FlagParse, Event.LogVersion], Outcome.returned)
  else
    match e.parse with
    | Except.error err =>
      (Event.SetLogOutput :: Event.FlagParse :: Event.EnvParse :: failOnError (some err),
        Outcome.exited 1)
    | Except.ok cnf =>
      let r := serve w fuel cnf e sh sm
      (Event.SetLogOutput :: Event.FlagParse :: Event.EnvParse ::
        (failOnError none ++ r.1), r.2)

/-- Collaborators described by their answers alone: `len` is what `sender.Len()`
returns, `se k` and `ce k` are what the call number `k` (from 0) of `sender.Empty()`
and of `collect.Empty()` return, and `wf k` tells whether the call number `k` of
`collect.WaitFlush()` returns.  The state counts the calls made so far. -/
def oracle (len : Int) (se ce wf : Nat → Bool) : Collab (Nat × Nat × Nat) where
  FlushAll := fun s => s
  Len := fun s => (len, s)
  SenderEmpty := fun s => (se s.1, (s.1 + 1, s.2.1, s.2.2))
  CollectEmpty := fun s => (ce s.2.1, (s.1, s.2.1 + 1, s.2.2))
  WaitFlush := fun s => if wf s.2.2 then some (s.1, s.2.1, s.2.2 + 1) else none

/-- Collaborators that always give the same answers, every `WaitFlush` returning. -/
def steady (len : Int) (se ce : Bool) : Collab Unit where
  FlushAll := fun s => s
  Len := fun s => (len, s)
  SenderEmpty := fun s => (se, s)
  CollectEmpty := fun s => (ce, s)
  WaitFlush := fun s => some s

/-- A sender with two queued tables that never empties, behind a collector that never empties. -/
def neverEmpty : Collab Unit := steady 2 false false

/-- A collector that is empty while the sender still holds two queued tables. -/
def senderBusy : Collab Unit := steady 2 false true

/-- A collector and a sender that are both empty. -/
def idle : Collab Unit := steady 0 true true

/-- A configuration with two servers. -/
def sampleConfig : config :=
  { Port := 8124, ClickhouseServers := ["http://ch1:8123", "http://ch2:8123"],
    ClickhouseDownTimeout := 300, FlushCount := 10000, FlushInterval := 1000,
    DumpDir := "dumps", Debug := false }

/-- The calls made by the polling loop of `SafeQuit`. -/
def Event.isPoll : Event → Bool
  | Event.SenderEmpty _ => true
  | Event.CollectEmpty _ => true
  | Event.WaitFlush => true
  | _ => false

/-- The URL registered by an `AddServer` call. -/
def Event.addedServer : Event → Option String
  | Event.AddServer url => some url
  | _ => none

/-- The trace of the handler goroutine over signals whose `srv.Shutdown` all answered `nil`. -/
def okTrace (ctx : Context) : List Sig → List Event
  | [] => []
  | sg :: rest => sigHead ctx sg ++ okTrace ctx rest

/-- The events of `srv.Start()` and of signal handling, outside `SafeQuit`. -/
def Event.isQuiet : Event → Bool
  | Event.SrvStart => true
  | Event.Signal _ => true
  | Event.LogStop => true
  | Event.Shutdown _ _ => true
  | Event.LogShutdownError _ => true
  | Event.StartReturned _ => true
  | Event.LogListenAndServe _ => true
  | Event.Cancel => true
  | _ => false

/-- The events of `SafeQuit(collect, sender); os.Exit(1)`. -/
def Event.isQuit : Event → Bool
  | Event.FlushAll => true
  | Event.SenderLen _ => true
  | Event.LogSending _ => true
  | Event.SenderEmpty _ => true
  | Event.CollectEmpty _ => true
  | Event.WaitFlush => true
  | Event.Exit _ => true
  | _ => false

/-- The events of the start of `main`, up to the `go` statement. -/
def Event.isSetup : Event → Bool
  | Event.SetLogOutput => true
  | Event.FlagParse => true
  | Event.EnvParse => true
  | Event.NewFileDumper => true
  | Event.SetDumperPath _ => true
  | Event.NewClickhouse _ => true
  | Event.SetSenderDumper => true
  | Event.AddServer _ => true
  | Event.NewCollector _ _ => true
  | Event.SignalNotify => true
  | Event.InitServer _ _ => true
  | Event.MakeContext _ => true
  | Event.GoHandler => true
  | _ => false

/-- A signal received six seconds after the shutdown context was created at clock
reading 0, whose `srv.Shutdown` answers `err`. -/
def lateSignal (err : Option String) : Sig := ⟨6 * Second, 0, err⟩

/-- An execution in which `main` enters `srv.Start()`, one signal is handled,
`srv.Shutdown` succeeds, and `srv.Start()` then returns `nil`. -/
def quietStop : Env :=
  { arg0 := "", parse := Except.ok sampleConfig, now := 0, signals := [],
    start := some none, late := [lateSignal none],
    schedule := [true, false, false, false, true, true] }

/-- An execution in which `srv.Shutdown` fails on the first signal and the handler
goroutine then runs alone for six steps. -/
def failedStop : Env :=
  { arg0 := "", parse := Except.ok sampleConfig, now := 0,
    signals := [lateSignal (some "context deadline exceeded")], start := none, late := [],
    schedule := [true, false, false, false, false, false, false] }

theorem pollLoop_sender_empty {σ : Type} (w : Collab σ) (fuel : Nat) (s : σ)
    (h : (w.SenderEmpty s).1 = true) :
    pollLoop w (fuel + 1) s = ([Event.SenderEmpty true], Status.returned (w.SenderEmpty s).2) := by
  simp [pollLoop, h]

theorem pollLoop_collect_empty {σ : Type} (w : Collab σ) (fuel : Nat) (s : σ)
    (h : (w.SenderEmpty s).1 = false) (h2 : (w.CollectEmpty (w.SenderEmpty s).2).1 = true) :
    pollLoop w (fuel + 1) s = ([Event.SenderEmpty false, Event.CollectEmpty true],
      Status.returned (w.CollectEmpty (w.SenderEmpty s).2).2) := by
  simp [pollLoop, h, h2]

theorem pollLoop_blocked {σ : Type} (w : Collab σ) (fuel : Nat) (s : σ)
    (h : (w.SenderEmpty s).1 = false) (h2 : (w.CollectEmpty (w.SenderEmpty s).2).1 = false)
    (h3 : w.WaitFlush (w.CollectEmpty (w.SenderEmpty s).2).2 = none) :
    pollLoop w (fuel + 1) s =
      ([Event.SenderEmpty false, Event.CollectEmpty false, Event.WaitFlush], Status.blocked) := by
  simp [pollLoop, h, h2, h3]

theorem pollLoop_iterate {σ : Type} (w : Collab σ) (fuel : Nat) (s s3 : σ)
    (h : (w.SenderEmpty s).1 = false) (h2 : (w.CollectEmpty (w.SenderEmpty s).2).1 = false)
    (h3 : w.WaitFlush (w.CollectEmpty (w.SenderEmpty s).2).2 = some s3) :
    pollLoop w (fuel + 1) s =
      (Event.SenderEmpty false :: Event.CollectEmpty false :: Event.WaitFlush ::
        (pollLoop w fuel s3).1, (pollLoop w fuel s3).2) := by
  simp [pollLoop, h, h2, h3]

/-- The four ways one loop test can go. -/
theorem pollLoop_cases {σ : Type} (w : Collab σ) (fuel : Nat) (s : σ) :
    (∃ q, pollLoop w (fuel + 1) s = ([Event.SenderEmpty true], Status.returned q)) ∨
    (∃ q, pollLoop w (fuel + 1) s =
      ([Event.SenderEmpty false, Event.CollectEmpty true], Status.returned q)) ∨
    (pollLoop w (fuel + 1) s =
      ([Event.SenderEmpty false, Event.CollectEmpty false, Event.WaitFlush], Status.blocked)) ∨
    (∃ s3, pollLoop w (fuel + 1) s =
      (Event.SenderEmpty false :: Event.CollectEmpty false :: Event.WaitFlush ::
        (pollLoop w fuel s3).1, (pollLoop w fuel s3).2)) := by
  cases h : (w.SenderEmpty s).1 with
  | true => exact Or.inl ⟨_, pollLoop_sender_empty w fuel s h⟩
  | false =>
    cases h2 : (w.CollectEmpty (w.SenderEmpty s).2).1 with
    | true => exact Or.inr (Or.inl ⟨_, pollLoop_collect_empty w fuel s h h2⟩)
    | false =>
      cases h3 : w.WaitFlush (w.CollectEmpty (w.SenderEmpty s).2).2 with
      | none => exact Or.inr (Or.inr (Or.inl (pollLoop_blocked w fuel s h h2 h3)))
      | some s3 => exact Or.inr (Or.inr (Or.inr ⟨s3, pollLoop_iterate w fuel s s3 h h2 h3⟩))

theorem pollLoop_events {σ : Type} (w : Collab σ) (fuel : Nat) (s : σ) :
    ∀ e ∈ (pollLoop w fuel s).1, e.isPoll = true := by
  induction fuel generalizing s with
  | zero => intro e he; simp [pollLoop] at he
  | succ n ih =>
    intro e he
    rcases pollLoop_cases w n s with ⟨q, h⟩ | ⟨q, h⟩ | h | ⟨s3, h⟩
    · rw [h] at he; simp at he; subst he; rfl
    · rw [h] at he; simp at he; rcases he with h | h <;> subst h <;> rfl
    · rw [h] at he; simp at he; rcases he with h | h | h <;> subst h <;> rfl
    · rw [h] at he
      simp only [List.mem_cons] at he
      rcases he with h | h | h | h
      · subst h; rfl
      · subst h; rfl
      · subst h; rfl
      · exact ih s3 e h

theorem pollLoop_succ_waits {σ : Type} (w : Collab σ) (fuel : Nat) (s : σ) :
    (∃ q, (pollLoop w (fuel + 1) s).2 = Status.returned q) ∨
      Event.WaitFlush ∈ (pollLoop w (fuel + 1) s).1 := by
  rcases pollLoop_cases w fuel s with ⟨q, h⟩ | ⟨q, h⟩ | h | ⟨s3, h⟩
  · exact Or.inl ⟨q, by rw [h]⟩
  · exact Or.inl ⟨q, by rw [h]⟩
  · exact Or.inr (by rw [h]; simp)
  · exact Or.inr (by rw [h]; simp)

/-- The trace of `SafeQuit`: `FlushAll`, the `Len` query, the loop, and the last
`WaitFlush` when the loop was left. -/
theorem SafeQuit_trace {σ : Type} (w : Collab σ) (fuel : Nat) (s : σ) :
    (∃ q, (pollLoop w fuel (w.Len (w.FlushAll s)).2).2 = Status.returned q ∧
      (SafeQuit w fuel s).1 = Event.FlushAll :: (lenEvents (w.Len (w.FlushAll s)).1 ++
        (pollLoop w fuel (w.Len (w.FlushAll s)).2).1 ++ [Event.WaitFlush])) ∨
    ((∀ q, (pollLoop w fuel (w.Len (w.FlushAll s)).2).2 ≠ Status.returned q) ∧
      (∀ q, (SafeQuit w fuel s).2 ≠ Status.returned q) ∧
      (SafeQuit w fuel s).1 = Event.FlushAll :: (lenEvents (w.Len (w.FlushAll s)).1 ++
        (pollLoop w fuel (w.Len (w.FlushAll s)).2).1)) := by
  unfold SafeQuit
  cases h : (pollLoop w fuel (w.Len (w.FlushAll s)).2).2 with
  | returned q =>
    left
    refine ⟨q, rfl, ?_⟩
    cases hw : w.WaitFlush q <;> simp [h, hw]
  | blocked => right; simp [h]
  | outOfFuel q => right; simp [h]

theorem SafeQuit_of_left {σ : Type} (w : Collab σ) (fuel : Nat) (s q r : σ)
    (h : (pollLoop w fuel (w.Len (w.FlushAll s)).2).2 = Status.returned q)
    (hw : w.WaitFlush q = some r) :
    SafeQuit w fuel s = (Event.FlushAll :: (lenEvents (w.Len (w.FlushAll s)).1 ++
      (pollLoop w fuel (w.Len (w.FlushAll s)).2).1 ++ [Event.WaitFlush]), Status.returned r) := by
  unfold SafeQuit
  simp [h, hw]

theorem SafeQuit_of_left_blocked {σ : Type} (w : Collab σ) (fuel : Nat) (s q : σ)
    (h : (pollLoop w fuel (w.Len (w.FlushAll s)).2).2 = Status.returned q)
    (hw : w.WaitFlush q = none) :
    SafeQuit w fuel s = (Event.FlushAll :: (lenEvents (w.Len (w.FlushAll s)).1 ++
      (pollLoop w fuel (w.Len (w.FlushAll s)).2).1 ++ [Event.WaitFlush]), Status.blocked) := by
  unfold SafeQuit
  simp [h, hw]

theorem SafeQuit_of_blocked {σ : Type} (w : Collab σ) (fuel : Nat) (s : σ)
    (h : (pollLoop w fuel (w.Len (w.FlushAll s)).2).2 = Status.blocked) :
    SafeQuit w fuel s = (Event.FlushAll :: (lenEvents (w.Len (w.FlushAll s)).1 ++
      (pollLoop w fuel (w.Len (w.FlushAll s)).2).1), Status.blocked) := by
  unfold SafeQuit
  simp [h]

theorem SafeQuit_of_outOfFuel {σ : Type} (w : Collab σ) (fuel : Nat) (s q : σ)
    (h : (pollLoop w fuel (w.Len (w.FlushAll s)).2).2 = Status.outOfFuel q) :
    SafeQuit w fuel s = (Event.FlushAll :: (lenEvents (w.Len (w.FlushAll s)).1 ++
      (pollLoop w fuel (w.Len (w.FlushAll s)).2).1), Status.outOfFuel q) := by
  unfold SafeQuit
  simp [h]

theorem lenEvents_count_wait (c : Int) : (lenEvents c).count Event.WaitFlush = 0 := by
  unfold lenEvents
  split <;> simp

theorem lenEvents_mem (c : Int) :
    ∀ e ∈ lenEvents c, e = Event.SenderLen c ∨ e = Event.LogSending c := by
  intro e he
  unfold lenEvents at he
  split at he <;> simp at he <;> tauto

theorem SafeQuit_tail_no_flush {σ : Type} (w : Collab σ) (fuel : Nat) (s : σ) :
    ∃ rest, (SafeQuit w fuel s).1 = Event.FlushAll :: rest ∧
      ∀ e ∈ rest, (∃ c, e = Event.SenderLen c) ∨ (∃ c, e = Event.LogSending c) ∨
        (∃ b, e = Event.SenderEmpty b) ∨ (∃ b, e = Event.CollectEmpty b) ∨
        e = Event.WaitFlush := by
  have hp : ∀ e ∈ (pollLoop w fuel (w.Len (w.FlushAll s)).2).1,
      (∃ b, e = Event.SenderEmpty b) ∨ (∃ b, e = Event.CollectEmpty b) ∨
        e = Event.WaitFlush := by
    intro e he
    have := pollLoop_events w fuel _ e he
    cases e <;> simp [Event.isPoll] at this ⊢
  have hl : ∀ e ∈ lenEvents (w.Len (w.FlushAll s)).1,
      (∃ c, e = Event.SenderLen c) ∨ (∃ c, e = Event.LogSending c) := by
    intro e he
    rcases lenEvents_mem _ e he with h | h
    · exact Or.inl ⟨_, h⟩
    · exact Or.inr ⟨_, h⟩
  rcases SafeQuit_trace w fuel s with ⟨q, _, ht⟩ | ⟨_, _, ht⟩
  · refine ⟨_, ht, ?_⟩
    intro e he
    simp only [List.mem_append, List.mem_singleton] at he
    rcases he with (h | h) | h
    · rcases hl e h with h | h
      · exact Or.inl h
      · exact Or.inr (Or.inl h)
    · rcases hp e h with h | h | h
      · exact Or.inr (Or.inr (Or.inl h))
      · exact Or.inr (Or.inr (Or.inr (Or.inl h)))
      · exact Or.inr (Or.inr (Or.inr (Or.inr h)))
    · exact Or.inr (Or.inr (Or.inr (Or.inr h)))
  · refine ⟨_, ht, ?_⟩
    intro e he
    simp only [List.mem_append] at he
    rcases he with h | h
    · rcases hl e h with h | h
      · exact Or.inl h
      · exact Or.inr (Or.inl h)
    · rcases hp e h with h | h | h
      · exact Or.inr (Or.inr (Or.inl h))
      · exact Or.inr (Or.inr (Or.inr (Or.inl h)))
      · exact Or.inr (Or.inr (Or.inr (Or.inr h)))

theorem SafeQuit_tail_flush_free {σ : Type} (w : Collab σ) (fuel : Nat) (s : σ) :
    ∃ rest, (SafeQuit w fuel s).1 = Event.FlushAll :: rest ∧ Event.FlushAll ∉ rest := by
  obtain ⟨rest, h1, h2⟩ := SafeQuit_tail_no_flush w fuel s
  refine ⟨rest, h1, ?_⟩
  intro hm
  rcases h2 _ hm with ⟨c, h⟩ | ⟨c, h⟩ | ⟨c, h⟩ | ⟨c, h⟩ | h <;> cases h

/-- C8: every run of `SafeQuit` starts with `collect.FlushAll()`, calls it exactly
once, calls `collect.WaitFlush()` at least once after it as soon as one loop test has
been made (also when both collaborators report empty at once), and makes no other
calls than `FlushAll`, `sender.Len`, the log line, `sender.Empty`, `collect.Empty`
and `WaitFlush`: the sender is only queried, never changed. -/
theorem SafeQuit_flushes_once_then_waits {σ : Type} (w : Collab σ) (fuel : Nat) (s : σ) :
    (SafeQuit w fuel s).1.head? = some Event.FlushAll ∧
    (SafeQuit w fuel s).1.count Event.FlushAll = 1 ∧
    (∃ mid rest,
      (SafeQuit w (fuel + 1) s).1 = Event.FlushAll :: (mid ++ Event.WaitFlush :: rest)) ∧
    (∀ e ∈ (SafeQuit w fuel s).1, e = Event.FlushAll ∨ (∃ c, e = Event.SenderLen c) ∨
      (∃ c, e = Event.LogSending c) ∨ (∃ b, e = Event.SenderEmpty b) ∨
      (∃ b, e = Event.CollectEmpty b) ∨ e = Event.WaitFlush) := by
  obtain ⟨rest, h1, h2⟩ := SafeQuit_tail_no_flush w fuel s
  obtain ⟨rest2, h3, h4⟩ := SafeQuit_tail_flush_free w fuel s
  refine ⟨by rw [h1]; rfl, ?_, ?_, ?_⟩
  · rw [h3, List.count_cons_self, List.count_eq_zero.mpr h4]
  · rcases SafeQuit_trace w (fuel + 1) s with ⟨q, _, ht⟩ | ⟨hn, _, ht⟩
    · exact ⟨_, [], by rw [ht]⟩
    · rcases pollLoop_succ_waits w fuel (w.Len (w.FlushAll s)).2 with ⟨q, hq⟩ | hm
      · exact absurd hq (hn q)
      · obtain ⟨a, b, hab⟩ := List.append_of_mem hm
        refine ⟨lenEvents (w.Len (w.FlushAll s)).1 ++ a, b, ?_⟩
        rw [ht, hab]; simp
  · intro e he
    rw [h1] at he
    rcases List.mem_cons.mp he with h | h
    · exact Or.inl h
    · exact Or.inr (h2 e h)

/-- A witness of C8: with an empty collector and an empty sender `SafeQuit` still
calls `WaitFlush`, and that call is one of the six kinds of call it may make. -/
theorem SafeQuit_flushes_once_then_waits_witness :
    Event.WaitFlush ∈ (SafeQuit idle 1 ()).1 ∧
      (Event.WaitFlush = Event.FlushAll ∨ (∃ c, Event.WaitFlush = Event.SenderLen c) ∨
        (∃ c, Event.WaitFlush = Event.LogSending c) ∨
        (∃ b, Event.WaitFlush = Event.SenderEmpty b) ∨
        (∃ b, Event.WaitFlush = Event.CollectEmpty b) ∨ Event.WaitFlush = Event.WaitFlush) :=
  ⟨by decide, (SafeQuit_flushes_once_then_waits idle 1 ()).2.2.2 Event.WaitFlush (by decide)⟩

/-- C1: with a collector that reports empty and a sender that still holds queued
tables, the loop of `SafeQuit` makes one test and is left without any iteration,
in a state where `sender.Empty()` is false; `SafeQuit` then returns. -/
theorem pollLoop_left_while_sender_busy :
    (senderBusy.SenderEmpty ()).1 = false ∧
    (senderBusy.CollectEmpty ()).1 = true ∧
    (∀ fuel, pollLoop senderBusy (fuel + 1) () =
      ([Event.SenderEmpty false, Event.CollectEmpty true], Status.returned ())) ∧
    SafeQuit senderBusy 1 () =
      ([Event.FlushAll, Event.SenderLen 2, Event.LogSending 2, Event.SenderEmpty false,
        Event.CollectEmpty true, Event.WaitFlush], Status.returned ()) := by
  refine ⟨rfl, rfl, ?_, rfl⟩
  intro fuel
  exact pollLoop_collect_empty senderBusy fuel () rfl rfl

theorem pollLoop_neverEmpty (fuel : Nat) :
    (pollLoop neverEmpty fuel ()).2 = Status.outOfFuel () ∧
      (pollLoop neverEmpty fuel ()).1.count Event.WaitFlush = fuel := by
  induction fuel with
  | zero => exact ⟨rfl, rfl⟩
  | succ n ih =>
    rw [pollLoop_iterate neverEmpty n () () rfl rfl rfl]
    refine ⟨ih.1, ?_⟩
    simp only [List.count_cons, ih.2]
    simp

theorem SafeQuit_neverEmpty (fuel : Nat) :
    (SafeQuit neverEmpty fuel ()).2 = Status.outOfFuel () ∧
      (SafeQuit neverEmpty fuel ()).1.count Event.WaitFlush = fuel := by
  have h := pollLoop_neverEmpty fuel
  rw [SafeQuit_of_outOfFuel neverEmpty fuel () () h.1]
  refine ⟨rfl, ?_⟩
  have hp : (pollLoop neverEmpty fuel (neverEmpty.Len (neverEmpty.FlushAll ())).2).1.count
      Event.WaitFlush = fuel := h.2
  simp only [List.count_cons, List.count_append, hp, lenEvents_count_wait]
  simp

/-- C2, as stated, fails: with a sender and a collector that never report empty,
every `WaitFlush` call returning, `SafeQuit` has not returned after any number of
loop tests: after `fuel` tests it has made `fuel` iterations and is still polling. -/
theorem SafeQuit_polls_for_ever_when_never_empty :
    (∀ s, (neverEmpty.WaitFlush s).isSome = true) ∧
    (∀ fuel, (SafeQuit neverEmpty fuel ()).2 = Status.outOfFuel () ∧
      (SafeQuit neverEmpty fuel ()).1.count Event.WaitFlush = fuel) ∧
    ¬ ∃ fuel q, (SafeQuit neverEmpty fuel ()).2 = Status.returned q := by
  refine ⟨fun _ => rfl, SafeQuit_neverEmpty, ?_⟩
  rintro ⟨fuel, q, h⟩
  rw [(SafeQuit_neverEmpty fuel).1] at h
  cases h

theorem pollLoop_oracle_returns (len : Int) (se ce wf : Nat → Bool) (n : Nat)
    (hwf : ∀ k, wf k = true) (hse : se n = true) :
    ∀ fuel i, i ≤ n → n < i + fuel →
      ∃ q, (pollLoop (oracle len se ce wf) fuel (i, i, i)).2 = Status.returned q ∧
        (pollLoop (oracle len se ce wf) fuel (i, i, i)).1.count Event.WaitFlush + i ≤ n := by
  intro fuel
  induction fuel with
  | zero => intro i h1 h2; omega
  | succ m ih =>
    intro i h1 h2
    cases h : se i with
    | true =>
      rw [pollLoop_sender_empty (oracle len se ce wf) m (i, i, i) h]
      exact ⟨_, rfl, by simpa using h1⟩
    | false =>
      have hne : i ≠ n := by
        intro hin
        rw [hin, hse] at h
        cases h
      have hlt : i + 1 ≤ n := by omega
      cases h2c : ce i with
      | true =>
        rw [pollLoop_collect_empty (oracle len se ce wf) m (i, i, i) h h2c]
        exact ⟨_, rfl, by simpa using h1⟩
      | false =>
        have h3 : (oracle len se ce wf).WaitFlush
            ((oracle len se ce wf).CollectEmpty
              ((oracle len se ce wf).SenderEmpty (i, i, i)).2).2 = some (i + 1, i + 1, i + 1) := by
          simp [oracle, hwf]
        rw [pollLoop_iterate (oracle len se ce wf) m (i, i, i) _ h h2c h3]
        obtain ⟨q, hr, hc⟩ := ih (i + 1) hlt (by omega)
        refine ⟨q, hr, ?_⟩
        have : (Event.SenderEmpty false :: Event.CollectEmpty false :: Event.WaitFlush ::
            (pollLoop (oracle len se ce wf) m (i + 1, i + 1, i + 1)).1).count Event.WaitFlush =
            (pollLoop (oracle len se ce wf) m (i + 1, i + 1, i + 1)).1.count Event.WaitFlush + 1 := by
          simp [List.count_cons]
        show List.count Event.WaitFlush (Event.SenderEmpty false :: Event.CollectEmpty false ::
          Event.WaitFlush :: (pollLoop (oracle len se ce wf) m (i + 1, i + 1, i + 1)).1) + i ≤ n
        rw [this]
        omega

/-- C2, amended: for every behaviour in which each `WaitFlush` call returns and, at
poll number `n` (counted from 0), `sender.Empty()` and `collect.Empty()` both answer
true, `SafeQuit` returns once it is given more than `n` loop tests, after at most `n`
polling iterations (at most `n + 1` calls of `WaitFlush`, the last one after the loop). -/
theorem SafeQuit_returns_once_empty (len : Int) (se ce wf : Nat → Bool) (n fuel : Nat)
    (hwf : ∀ k, wf k = true) (hse : se n = true) (hce : ce n = true) (hfuel : n < fuel) :
    (∃ q, (SafeQuit (oracle len se ce wf) fuel (0, 0, 0)).2 = Status.returned q) ∧
      (SafeQuit (oracle len se ce wf) fuel (0, 0, 0)).1.count Event.WaitFlush ≤ n + 1 := by
  have _ := hce
  obtain ⟨q, hr, hc⟩ :=
    pollLoop_oracle_returns len se ce wf n hwf hse fuel 0 (Nat.zero_le n) (by omega)
  have hw : (oracle len se ce wf).WaitFlush q = some (q.1, q.2.1, q.2.2 + 1) := by
    simp [oracle, hwf]
  have hr2 : (pollLoop (oracle len se ce wf) fuel
      ((oracle len se ce wf).Len ((oracle len se ce wf).FlushAll (0, 0, 0))).2).2 =
      Status.returned q := hr
  rw [SafeQuit_of_left (oracle len se ce wf) fuel (0, 0, 0) q _ hr2 hw]
  refine ⟨⟨_, rfl⟩, ?_⟩
  have hp : (pollLoop (oracle len se ce wf) fuel
      ((oracle len se ce wf).Len ((oracle len se ce wf).FlushAll (0, 0, 0))).2).1.count
      Event.WaitFlush ≤ n := by
    have : (pollLoop (oracle len se ce wf) fuel (0, 0, 0)).1.count Event.WaitFlush ≤ n := by
      omega
    exact this
  show List.count Event.WaitFlush (Event.FlushAll :: (lenEvents _ ++ _ ++ [Event.WaitFlush])) ≤ n + 1
  rw [List.count_cons, List.count_append, List.count_append, lenEvents_count_wait]
  generalize (pollLoop (oracle len se ce wf) fuel
      ((oracle len se ce wf).Len ((oracle len se ce wf).FlushAll (0, 0, 0))).2).1.count
      Event.WaitFlush = c at hp ⊢
  have h1 : List.count Event.WaitFlush [Event.WaitFlush] = 1 := rfl
  have h2 : (if (Event.FlushAll == Event.WaitFlush) = true then 1 else 0) = 0 := rfl
  rw [h1, h2]
  omega

/-- A witness of the amended C2: both collaborators report empty from poll 2 on, and
`SafeQuit` returns within three loop tests after at most three `WaitFlush` calls. -/
theorem SafeQuit_returns_once_empty_witness :
    (∃ q, (SafeQuit (oracle 1 (fun k => decide (2 ≤ k)) (fun k => decide (2 ≤ k))
        (fun _ => true)) 3 (0, 0, 0)).2 = Status.returned q) ∧
      (SafeQuit (oracle 1 (fun k => decide (2 ≤ k)) (fun k => decide (2 ≤ k))
        (fun _ => true)) 3 (0, 0, 0)).1.count Event.WaitFlush ≤ 2 + 1 :=
  SafeQuit_returns_once_empty 1 (fun k => decide (2 ≤ k)) (fun k => decide (2 ≤ k))
    (fun _ => true) 2 3 (fun _ => rfl) (by decide) (by decide) (by decide)

/-! ## The handler goroutine -/

theorem quitAndExit_cases {σ : Type} (w : Collab σ) (fuel : Nat) (s : σ) :
    (∃ q, (SafeQuit w fuel s).2 = Status.returned q ∧
      quitAndExit w fuel s = ((SafeQuit w fuel s).1 ++ [Event.Exit 1], Outcome.exited 1)) ∨
    ((∀ q, (SafeQuit w fuel s).2 ≠ Status.returned q) ∧
      (quitAndExit w fuel s).1 = (SafeQuit w fuel s).1 ∧
      ((quitAndExit w fuel s).2 = Outcome.blocked ∨
        (quitAndExit w fuel s).2 = Outcome.outOfFuel)) := by
  cases h : (SafeQuit w fuel s).2 with
  | returned q => left; exact ⟨q, rfl, by simp [quitAndExit, quitOutcome, h]⟩
  | blocked => right; simp [quitAndExit, quitOutcome, h]
  | outOfFuel q => right; simp [quitAndExit, quitOutcome, h]

theorem quitAndExit_events {σ : Type} (w : Collab σ) (fuel : Nat) (s : σ) :
    ∀ e ∈ (quitAndExit w fuel s).1, e.isQuit = true := by
  have hq : ∀ e ∈ (SafeQuit w fuel s).1, e.isQuit = true := by
    intro e he
    obtain ⟨rest, h1, h2⟩ := SafeQuit_tail_no_flush w fuel s
    rw [h1] at he
    rcases List.mem_cons.mp he with h | h
    · subst h; rfl
    · rcases h2 e h with ⟨c, h⟩ | ⟨c, h⟩ | ⟨c, h⟩ | ⟨c, h⟩ | h <;> subst h <;> rfl
  intro e he
  rcases quitAndExit_cases w fuel s with ⟨q, _, h⟩ | ⟨_, h, _⟩
  · rw [h] at he
    rcases List.mem_append.mp he with h | h
    · exact hq e h
    · simp at h; subst h; rfl
  · rw [h] at he
    exact hq e he

theorem quitAndExit_head {σ : Type} (w : Collab σ) (fuel : Nat) (s : σ) :
    ∃ rest, (quitAndExit w fuel s).1 = Event.FlushAll :: rest := by
  obtain ⟨r, h1, _⟩ := SafeQuit_tail_flush_free w fuel s
  rcases quitAndExit_cases w fuel s with ⟨q, _, h⟩ | ⟨_, h, _⟩
  · exact ⟨r ++ [Event.Exit 1], by rw [h, h1]; rfl⟩
  · exact ⟨r, by rw [h, h1]⟩

theorem SafeQuit_no_exit {σ : Type} (w : Collab σ) (fuel : Nat) (s : σ) :
    ∀ c, Event.Exit c ∉ (SafeQuit w fuel s).1 := by
  intro c hm
  obtain ⟨rest, h1, h2⟩ := SafeQuit_tail_no_flush w fuel s
  rw [h1] at hm
  rcases List.mem_cons.mp hm with h | h
  · cases h
  · rcases h2 _ h with ⟨c, h⟩ | ⟨c, h⟩ | ⟨c, h⟩ | ⟨c, h⟩ | h <;> cases h

theorem okTrace_events (ctx : Context) (sigs : List Sig) :
    ∀ e ∈ okTrace ctx sigs, e.isQuiet = true ∧
      ∀ c t, e = Event.Shutdown c t → c = ctx ∧ ∃ sg ∈ sigs, t = sg.received + sg.delay := by
  induction sigs with
  | nil => intro e he; simp [okTrace] at he
  | cons sg rest ih =>
    intro e he
    simp only [okTrace, sigHead, List.cons_append, List.nil_append, List.mem_cons] at he
    rcases he with h | h | h | h
    · subst h; exact ⟨rfl, fun c t hc => by cases hc⟩
    · subst h; exact ⟨rfl, fun c t hc => by cases hc⟩
    · subst h
      refine ⟨rfl, fun c t hc => ?_⟩
      cases hc
      exact ⟨rfl, sg, List.mem_cons_self _ _, rfl⟩
    · obtain ⟨h1, h2⟩ := ih e h
      refine ⟨h1, fun c t hc => ?_⟩
      obtain ⟨h3, sg2, h4, h5⟩ := h2 c t hc
      exact ⟨h3, sg2, List.mem_cons_of_mem _ h4, h5⟩

theorem okTrace_append (ctx : Context) (a b : List Sig) :
    okTrace ctx (a ++ b) = okTrace ctx a ++ okTrace ctx b := by
  induction a with
  | nil => rfl
  | cons x xs ih => simp [okTrace, ih]

theorem okTrace_mem (ctx : Context) (sigs : List Sig) (sg : Sig) (h : sg ∈ sigs) :
    Event.Shutdown ctx (sg.received + sg.delay) ∈ okTrace ctx sigs := by
  induction sigs with
  | nil => cases h
  | cons x xs ih =>
    rcases List.mem_cons.mp h with h | h
    · subst h; simp [okTrace, sigHead]
    · simp only [okTrace, List.mem_append]
      exact Or.inr (ih h)

theorem handlerLoop_cases {σ : Type} (w : Collab σ) (fuel : Nat) (ctx : Context) :
    ∀ (sigs : List Sig) (s : σ),
    ((∀ sg ∈ sigs, sg.shutdownErr = none) ∧
      handlerLoop w fuel ctx sigs s = (okTrace ctx sigs, Flow.next s)) ∨
    (∃ pre bad post err, sigs = pre ++ bad :: post ∧ (∀ sg ∈ pre, sg.shutdownErr = none) ∧
      bad.shutdownErr = some err ∧
      handlerLoop w fuel ctx sigs s =
        (okTrace ctx pre ++ (sigHead ctx bad ++ Event.LogShutdownError err ::
          (quitAndExit w fuel s).1), Flow.halt (quitAndExit w fuel s).2)) := by
  intro sigs
  induction sigs with
  | nil => intro s; left; exact ⟨by simp, rfl⟩
  | cons sg rest ih =>
    intro s
    cases h : sg.shutdownErr with
    | none =>
      have hb : handlerBody w fuel ctx sg s = (sigHead ctx sg, Flow.next s) := by
        simp [handlerBody, h]
      have hl : handlerLoop w fuel ctx (sg :: rest) s =
          (sigHead ctx sg ++ (handlerLoop w fuel ctx rest s).1,
            (handlerLoop w fuel ctx rest s).2) := by
        simp [handlerLoop, hb]
      rcases ih s with ⟨h1, h2⟩ | ⟨pre, bad, post, err, h1, h2, h3, h4⟩
      · left
        refine ⟨?_, ?_⟩
        · intro x hx
          rcases List.mem_cons.mp hx with hx | hx
          · rw [hx]; exact h
          · exact h1 x hx
        · rw [hl, h2]; rfl
      · right
        refine ⟨sg :: pre, bad, post, err, by rw [h1]; rfl, ?_, h3, ?_⟩
        · intro x hx
          rcases List.mem_cons.mp hx with hx | hx
          · rw [hx]; exact h
          · exact h2 x hx
        · rw [hl, h4]
          simp [okTrace]
    | some err =>
      right
      refine ⟨[], sg, rest, err, rfl, by simp, h, ?_⟩
      simp [handlerLoop, handlerBody, h, okTrace]

theorem split_before {α : Type} (P : α → Prop) (X rest a b : List α) (g : α)
    (h : X ++ rest = a ++ g :: b) (hX : ∀ x ∈ X, ¬ P x) (hg : P g) : ∃ c, a = X ++ c := by
  induction X generalizing a with
  | nil => exact ⟨a, rfl⟩
  | cons x xs ih =>
    cases a with
    | nil =>
      simp only [List.cons_append, List.nil_append, List.cons.injEq] at h
      exact absurd (h.1 ▸ hg) (hX x (List.mem_cons_self _ _))
    | cons y ys =>
      simp only [List.cons_append, List.cons.injEq] at h
      obtain ⟨c, hc⟩ := ih ys h.2 (fun z hz => hX z (List.mem_cons_of_mem _ hz))
      exact ⟨c, by rw [h.1, hc]; rfl⟩

/-- C4: in the signal handler `srv.Shutdown` comes first. The loop body starts with
the receipt of the signal, the log line and the call of `srv.Shutdown(ctx)`, and in
every trace of the handler goroutine each `FlushAll` event is preceded by a
`Shutdown` event. -/
theorem handler_shutdown_before_flush {σ : Type} (w : Collab σ) (fuel : Nat) (ctx : Context)
    (sg : Sig) (sigs : List Sig) (s : σ) :
    (∃ rest, (handlerBody w fuel ctx sg s).1 = Event.Signal sg.received :: Event.LogStop ::
      Event.Shutdown ctx (sg.received + sg.delay) :: rest ∧
      (rest = [] ∨ ∃ err, rest = Event.LogShutdownError err :: (quitAndExit w fuel s).1)) ∧
    (∀ a b, (handlerLoop w fuel ctx sigs s).1 = a ++ Event.FlushAll :: b →
      ∃ t, Event.Shutdown ctx t ∈ a) := by
  constructor
  · cases h : sg.shutdownErr with
    | none => exact ⟨[], by simp [handlerBody, h, sigHead], Or.inl rfl⟩
    | some err =>
      exact ⟨Event.LogShutdownError err :: (quitAndExit w fuel s).1,
        by simp [handlerBody, h, sigHead], Or.inr ⟨err, rfl⟩⟩
  · intro a b hab
    rcases handlerLoop_cases w fuel ctx sigs s with ⟨_, h⟩ | ⟨pre, bad, post, err, _, _, _, h⟩
    · rw [h] at hab
      have hm : Event.FlushAll ∈ okTrace ctx sigs := by
        show Event.FlushAll ∈ (okTrace ctx sigs, Flow.next s).1
        rw [hab]; simp
      have := (okTrace_events ctx sigs _ hm).1
      cases this
    · rw [h] at hab
      have hX : ∀ x ∈ okTrace ctx pre ++ sigHead ctx bad ++ [Event.LogShutdownError err],
          ¬ (x = Event.FlushAll) := by
        intro x hx hF
        subst hF
        simp only [List.mem_append, List.mem_singleton] at hx
        rcases hx with (hx | hx) | hx
        · have := (okTrace_events ctx pre _ hx).1
          cases this
        · simp [sigHead] at hx
        · cases hx
      have hab2 : (okTrace ctx pre ++ sigHead ctx bad ++ [Event.LogShutdownError err]) ++
          (quitAndExit w fuel s).1 = a ++ Event.FlushAll :: b := by
        rw [← hab]; simp
      obtain ⟨c, hc⟩ := split_before (fun x => x = Event.FlushAll) _ _ a b Event.FlushAll
        hab2 hX rfl
      refine ⟨bad.received + bad.delay, ?_⟩
      rw [hc]
      simp [sigHead]

/-- A witness of C4: the handler trace of a failed `srv.Shutdown`, split at its `FlushAll`. -/
theorem handler_shutdown_before_flush_witness :
    (handlerLoop idle 1 (WithTimeout 0 (5 * Second))
        [lateSignal (some "context deadline exceeded")] ()).1 =
      [Event.Signal (6 * Second), Event.LogStop,
          Event.Shutdown (WithTimeout 0 (5 * Second)) (6 * Second + 0),
          Event.LogShutdownError "context deadline exceeded"] ++
        Event.FlushAll :: [Event.SenderLen 0, Event.SenderEmpty true, Event.WaitFlush,
          Event.Exit 1] ∧
    ∃ t, Event.Shutdown (WithTimeout 0 (5 * Second)) t ∈
      [Event.Signal (6 * Second), Event.LogStop,
        Event.Shutdown (WithTimeout 0 (5 * Second)) (6 * Second + 0),
        Event.LogShutdownError "context deadline exceeded"] :=
  ⟨rfl, (handler_shutdown_before_flush idle 1 (WithTimeout 0 (5 * Second))
    (lateSignal none) [lateSignal (some "context deadline exceeded")] ()).2 _ _ rfl⟩

theorem exitCode_eq (ev : Event) (c : Nat) (h : ev.exitCode = some c) : ev = Event.Exit c := by
  cases ev <;> simp [Event.exitCode] at h
  rw [h]

theorem interleave_main_idle (ret : Bool) (sch : List Bool) (h : List Event) :
    interleave ret (true :: sch) h [] = interleave ret sch h [] := by
  simp [interleave]

theorem interleave_main_exit (ret : Bool) (sch : List Bool) (h m : List Event) (ev : Event)
    (c : Nat) (hc : ev.exitCode = some c) :
    interleave ret (true :: sch) h (ev :: m) = ([ev], Outcome.exited c) := by
  simp [interleave, hc]

theorem interleave_main_return (ret : Bool) (sch : List Bool) (h m : List Event) (ev : Event)
    (hc : ev.exitCode = none) (hr : (m.isEmpty && ret) = true) :
    interleave ret (true :: sch) h (ev :: m) = ([ev], Outcome.returned) := by
  simp only [interleave, hc, hr, if_true]

theorem interleave_main_step (ret : Bool) (sch : List Bool) (h m : List Event) (ev : Event)
    (hc : ev.exitCode = none) (hr : (m.isEmpty && ret) = false) :
    interleave ret (true :: sch) h (ev :: m) =
      (ev :: (interleave ret sch h m).1, (interleave ret sch h m).2) := by
  simp only [interleave, hc, hr]
  simp

theorem interleave_handler_idle (ret : Bool) (sch : List Bool) (m : List Event) :
    interleave ret (false :: sch) [] m = interleave ret sch [] m := by
  simp [interleave]

theorem interleave_handler_exit (ret : Bool) (sch : List Bool) (h m : List Event) (ev : Event)
    (c : Nat) (hc : ev.exitCode = some c) :
    interleave ret (false :: sch) (ev :: h) m = ([ev], Outcome.exited c) := by
  simp [interleave, hc]

theorem interleave_handler_step (ret : Bool) (sch : List Bool) (h m : List Event) (ev : Event)
    (hc : ev.exitCode = none) :
    interleave ret (false :: sch) (ev :: h) m =
      (ev :: (interleave ret sch h m).1, (interleave ret sch h m).2) := by
  simp [interleave, hc]

/-- The ways one scheduled step can go. -/
theorem interleave_cases (ret : Bool) (b : Bool) (sch : List Bool) (h m : List Event) :
    (interleave ret (b :: sch) h m = interleave ret sch h m) ∨
    (∃ ev c rest, (h = ev :: rest ∨ m = ev :: rest) ∧ ev = Event.Exit c ∧
      interleave ret (b :: sch) h m = ([ev], Outcome.exited c)) ∨
    (∃ ev m2, m = ev :: m2 ∧ ev.exitCode = none ∧ ret = true ∧
      interleave ret (b :: sch) h m = ([ev], Outcome.returned)) ∨
    (∃ ev m2, m = ev :: m2 ∧ ev.exitCode = none ∧
      interleave ret (b :: sch) h m =
        (ev :: (interleave ret sch h m2).1, (interleave ret sch h m2).2)) ∨
    (∃ ev h2, h = ev :: h2 ∧ ev.exitCode = none ∧
      interleave ret (b :: sch) h m =
        (ev :: (interleave ret sch h2 m).1, (interleave ret sch h2 m).2)) := by
  cases b with
  | true =>
    cases m with
    | nil => exact Or.inl (interleave_main_idle ret sch h)
    | cons ev m2 =>
      cases hc : ev.exitCode with
      | some c =>
        exact Or.inr (Or.inl ⟨ev, c, m2, Or.inr rfl, exitCode_eq ev c hc,
          interleave_main_exit ret sch h m2 ev c hc⟩)
      | none =>
        cases hr : (m2.isEmpty && ret) with
        | true =>
          have hret : ret = true := by
            simp only [Bool.and_eq_true] at hr
            exact hr.2
          exact Or.inr (Or.inr (Or.inl ⟨ev, m2, rfl, hc, hret,
            interleave_main_return ret sch h m2 ev hc hr⟩))
        | false =>
          exact Or.inr (Or.inr (Or.inr (Or.inl ⟨ev, m2, rfl, hc,
            interleave_main_step ret sch h m2 ev hc hr⟩)))
  | false =>
    cases h with
    | nil => exact Or.inl (interleave_handler_idle ret sch m)
    | cons ev h2 =>
      cases hc : ev.exitCode with
      | some c =>
        exact Or.inr (Or.inl ⟨ev, c, h2, Or.inl rfl, exitCode_eq ev c hc,
          interleave_handler_exit ret sch h2 m ev c hc⟩)
      | none =>
        exact Or.inr (Or.inr (Or.inr (Or.inr ⟨ev, h2, rfl, hc,
          interleave_handler_step ret sch h2 m ev hc⟩)))

theorem interleave_mem (ret : Bool) (sch : List Bool) :
    ∀ (h m : List Event), ∀ x ∈ (interleave ret sch h m).1, x ∈ h ∨ x ∈ m := by
  induction sch with
  | nil => intro h m x hx; simp [interleave] at hx
  | cons b sch ih =>
    intro h m x hx
    rcases interleave_cases ret b sch h m with hi | ⟨ev, c, rest, hev, _, hi⟩ |
      ⟨ev, m2, hm, _, _, hi⟩ | ⟨ev, m2, hm, _, hi⟩ | ⟨ev, h2, hh, _, hi⟩
    · rw [hi] at hx
      exact ih h m x hx
    · rw [hi] at hx
      simp at hx
      rcases hev with hev | hev
      · rw [hx, hev]; exact Or.inl (List.mem_cons_self _ _)
      · rw [hx, hev]; exact Or.inr (List.mem_cons_self _ _)
    · rw [hi] at hx
      simp at hx
      rw [hx, hm]; exact Or.inr (List.mem_cons_self _ _)
    · rw [hi] at hx
      rcases List.mem_cons.mp hx with hx | hx
      · rw [hx, hm]; exact Or.inr (List.mem_cons_self _ _)
      · rcases ih h m2 x hx with h1 | h1
        · exact Or.inl h1
        · rw [hm]; exact Or.inr (List.mem_cons_of_mem _ h1)
    · rw [hi] at hx
      rcases List.mem_cons.mp hx with hx | hx
      · rw [hx, hh]; exact Or.inl (List.mem_cons_self _ _)
      · rcases ih h2 m x hx with h1 | h1
        · rw [hh]; exact Or.inl (List.mem_cons_of_mem _ h1)
        · exact Or.inr h1

/-- The process ends by the return of `main` only when `main` does return. -/
theorem interleave_returned (ret : Bool) (sch : List Bool) :
    ∀ (h m : List Event), (interleave ret sch h m).2 = Outcome.returned → ret = true := by
  induction sch with
  | nil => intro h m hc; simp [interleave] at hc
  | cons b sch ih =>
    intro h m hc
    rcases interleave_cases ret b sch h m with hi | ⟨ev, c2, _, _, hev, hi⟩ |
      ⟨ev, m2, _, _, hret, hi⟩ | ⟨ev, m2, _, _, hi⟩ | ⟨ev, h2, _, _, hi⟩
    · rw [hi] at hc; exact ih h m hc
    · rw [hi] at hc; cases hc
    · exact hret
    · rw [hi] at hc; exact ih h m2 hc
    · rw [hi] at hc; exact ih h2 m hc

/-- Steps the handler goroutine takes first, none of them an `os.Exit`, come first in
the trace. -/
theorem interleave_handler_first (ret : Bool) (sch : List Bool) (m : List Event) :
    ∀ (p h : List Event), (∀ x ∈ p, x.exitCode = none) →
      interleave ret (List.replicate p.length false ++ sch) (p ++ h) m =
        (p ++ (interleave ret sch h m).1, (interleave ret sch h m).2) := by
  intro p
  induction p with
  | nil => intro h _; rfl
  | cons ev p ih =>
    intro h hp
    have hev := hp ev (List.mem_cons_self _ _)
    have := ih h (fun x hx => hp x (List.mem_cons_of_mem _ hx))
    simp only [List.length_cons, List.replicate_succ, List.cons_append]
    rw [interleave_handler_step ret _ (p ++ h) m ev hev, this]

/-- An `os.Exit` that each goroutine makes only after a `FlushAll` of its own ends the
process only after a `FlushAll`. -/
theorem interleave_exit_flushed (ret : Bool) (sch : List Bool) :
    ∀ (h m : List Event) (F : Prop),
      (∀ a c b, h = a ++ Event.Exit c :: b → F ∨ Event.FlushAll ∈ a) →
      (∀ a c b, m = a ++ Event.Exit c :: b → F ∨ Event.FlushAll ∈ a) →
      ∀ c, (interleave ret sch h m).2 = Outcome.exited c →
        F ∨ Event.FlushAll ∈ (interleave ret sch h m).1 := by
  induction sch with
  | nil => intro h m F _ _ c hc; simp [interleave] at hc
  | cons b sch ih =>
    intro h m F hh hm c hc
    rcases interleave_cases ret b sch h m with hi | ⟨ev, c2, rest, hev, hex, hi⟩ |
      ⟨ev, m2, _, _, _, hi⟩ | ⟨ev, m2, hm2, _, hi⟩ | ⟨ev, h2, hh2, _, hi⟩
    · rw [hi] at hc ⊢
      exact ih h m F hh hm c hc
    · left
      rcases hev with hev | hev
      · rcases hh [] c2 rest (by rw [hev, hex]; rfl) with h1 | h1
        · exact h1
        · cases h1
      · rcases hm [] c2 rest (by rw [hev, hex]; rfl) with h1 | h1
        · exact h1
        · cases h1
    · rw [hi] at hc; cases hc
    · rw [hi] at hc ⊢
      subst hm2
      have := ih h m2 (F ∨ ev = Event.FlushAll)
        (fun a c b hab => by
          rcases hh a c b hab with h1 | h1
          · exact Or.inl (Or.inl h1)
          · exact Or.inr h1)
        (fun a c b hab => by
          rcases hm (ev :: a) c b (by rw [hab]; rfl) with h1 | h1
          · exact Or.inl (Or.inl h1)
          · rcases List.mem_cons.mp h1 with h2 | h2
            · exact Or.inl (Or.inr h2.symm)
            · exact Or.inr h2) c hc
      rcases this with (h1 | h1) | h1
      · exact Or.inl h1
      · exact Or.inr (by rw [h1]; exact List.mem_cons_self _ _)
      · exact Or.inr (List.mem_cons_of_mem _ h1)
    · rw [hi] at hc ⊢
      subst hh2
      have := ih h2 m (F ∨ ev = Event.FlushAll)
        (fun a c b hab => by
          rcases hh (ev :: a) c b (by rw [hab]; rfl) with h1 | h1
          · exact Or.inl (Or.inl h1)
          · rcases List.mem_cons.mp h1 with h2 | h2
            · exact Or.inl (Or.inr h2.symm)
            · exact Or.inr h2)
        (fun a c b hab => by
          rcases hm a c b hab with h1 | h1
          · exact Or.inl (Or.inl h1)
          · exact Or.inr h1) c hc
      rcases this with (h1 | h1) | h1
      · exact Or.inl h1
      · exact Or.inr (by rw [h1]; exact List.mem_cons_self _ _)
      · exact Or.inr (List.mem_cons_of_mem _ h1)

/-! ## The scripts of the two goroutines -/

theorem quiet_or_quit_exitCode (x : Event) (h : x.isQuiet = true) : x.exitCode = none := by
  cases x <;> simp [Event.isQuiet] at h <;> rfl

theorem quitAndExit_exit_one {σ : Type} (w : Collab σ) (fuel : Nat) (s : σ) (c : Nat)
    (h : Event.Exit c ∈ (quitAndExit w fuel s).1) : c = 1 := by
  rcases quitAndExit_cases w fuel s with ⟨q, _, hx⟩ | ⟨_, hx, _⟩
  · rw [hx] at h
    rcases List.mem_append.mp h with h | h
    · exact absurd h (SafeQuit_no_exit w fuel s c)
    · simpa using h
  · rw [hx] at h
    exact absurd h (SafeQuit_no_exit w fuel s c)

/-- In a list made of steps without `os.Exit` followed by a list in which every
`os.Exit` has a `FlushAll` before it, every `os.Exit` has a `FlushAll` before it. -/
theorem guarded_append (X Y : List Event) (hX : ∀ x ∈ X, x.exitCode = none)
    (hY : ∀ a c b, Y = a ++ Event.Exit c :: b → Event.FlushAll ∈ a) :
    ∀ a c b, X ++ Y = a ++ Event.Exit c :: b → Event.FlushAll ∈ a := by
  intro a c b hab
  obtain ⟨d, hd⟩ := split_before (fun x => x.exitCode ≠ none) X Y a b (Event.Exit c) hab
    (fun x hx hne => hne (hX x hx)) (by simp [Event.exitCode])
  rw [hd, List.append_assoc] at hab
  have := hY d c b (List.append_cancel_left hab)
  rw [hd]
  exact List.mem_append_right _ this

theorem guarded_of_no_exit (X : List Event) (hX : ∀ x ∈ X, x.exitCode = none) :
    ∀ a c b, X = a ++ Event.Exit c :: b → Event.FlushAll ∈ a := by
  intro a c b hab
  have hm : Event.Exit c ∈ X := by rw [hab]; simp
  have := hX _ hm
  simp [Event.exitCode] at this

theorem quitAndExit_guarded {σ : Type} (w : Collab σ) (fuel : Nat) (s : σ) :
    ∀ a c b, (quitAndExit w fuel s).1 = a ++ Event.Exit c :: b → Event.FlushAll ∈ a := by
  intro a c b hab
  obtain ⟨r, hr⟩ := quitAndExit_head w fuel s
  rw [hr] at hab
  cases a with
  | nil =>
    simp only [List.nil_append, List.cons.injEq] at hab
    cases hab.1
  | cons y ys =>
    simp only [List.cons_append, List.cons.injEq] at hab
    rw [← hab.1]
    exact List.mem_cons_self _ _

theorem sigHead_exitCode (ctx : Context) (sg : Sig) : ∀ x ∈ sigHead ctx sg, x.exitCode = none := by
  intro x hx
  simp only [sigHead, List.mem_cons, List.not_mem_nil, or_false] at hx
  rcases hx with h | h | h <;> subst h <;> rfl

theorem okTrace_exitCode (ctx : Context) (sigs : List Sig) :
    ∀ x ∈ okTrace ctx sigs, x.exitCode = none :=
  fun x hx => quiet_or_quit_exitCode x (okTrace_events ctx sigs x hx).1

theorem handlerLoop_cons_ok {σ : Type} (w : Collab σ) (fuel : Nat) (ctx : Context) (sg : Sig)
    (rest : List Sig) (s : σ) (h : sg.shutdownErr = none) :
    handlerLoop w fuel ctx (sg :: rest) s =
      (sigHead ctx sg ++ (handlerLoop w fuel ctx rest s).1, (handlerLoop w fuel ctx rest s).2) := by
  have hb : handlerBody w fuel ctx sg s = (sigHead ctx sg, Flow.next s) := by
    simp [handlerBody, h]
  simp [handlerLoop, hb]

theorem handlerLoop_cons_failed {σ : Type} (w : Collab σ) (fuel : Nat) (ctx : Context) (sg : Sig)
    (rest : List Sig) (s : σ) (err : String) (h : sg.shutdownErr = some err) :
    handlerLoop w fuel ctx (sg :: rest) s =
      (sigHead ctx sg ++ Event.LogShutdownError err :: (quitAndExit w fuel s).1,
        Flow.halt (quitAndExit w fuel s).2) := by
  simp [handlerLoop, handlerBody, h]

/-- The handler goroutine starts with the steps of `early`. -/
theorem handlerLoop_early {σ : Type} (w : Collab σ) (fuel : Nat) (ctx : Context)
    (late : List Sig) (s : σ) :
    ∀ sigs, ∃ rest, (handlerLoop w fuel ctx (sigs ++ late) s).1 = early ctx sigs ++ rest := by
  intro sigs
  induction sigs with
  | nil => exact ⟨_, rfl⟩
  | cons sg sigs ih =>
    cases h : sg.shutdownErr with
    | none =>
      obtain ⟨rest, hr⟩ := ih
      refine ⟨rest, ?_⟩
      rw [List.cons_append, handlerLoop_cons_ok w fuel ctx sg _ s h]
      simp only [early, h]
      rw [hr, List.append_assoc]
    | some err =>
      refine ⟨Event.LogShutdownError err :: (quitAndExit w fuel s).1, ?_⟩
      rw [List.cons_append, handlerLoop_cons_failed w fuel ctx sg _ s err h]
      simp only [early, h]

theorem early_exitCode (ctx : Context) (sigs : List Sig) :
    ∀ x ∈ early ctx sigs, x.exitCode = none := by
  induction sigs with
  | nil => intro x hx; simp [early] at hx
  | cons sg sigs ih =>
    intro x hx
    cases h : sg.shutdownErr with
    | none =>
      simp only [early, h, List.mem_append] at hx
      rcases hx with hx | hx
      · exact sigHead_exitCode ctx sg x hx
      · exact ih x hx
    | some err =>
      simp only [early, h] at hx
      exact sigHead_exitCode ctx sg x hx

/-- Every signal that comes after signals whose `srv.Shutdown` succeeded has its call
of `srv.Shutdown` among the steps of `early`. -/
theorem early_mem (ctx : Context) (pre post : List Sig) (sg : Sig)
    (hpre : ∀ x ∈ pre, x.shutdownErr = none) :
    Event.Shutdown ctx (sg.received + sg.delay) ∈ early ctx (pre ++ sg :: post) := by
  induction pre with
  | nil =>
    cases h : sg.shutdownErr <;> simp [early, h, sigHead]
  | cons x xs ih =>
    have hx := hpre x (List.mem_cons_self _ _)
    have := ih (fun z hz => hpre z (List.mem_cons_of_mem _ hz))
    simp only [List.cons_append, early, hx, List.mem_append]
    exact Or.inr this

/-- What the handler goroutine does: signal handling and `SafeQuit; os.Exit(1)`. -/
theorem handlerLoop_events {σ : Type} (w : Collab σ) (fuel : Nat) (ctx : Context)
    (sigs : List Sig) (s : σ) :
    ∀ x ∈ (handlerLoop w fuel ctx sigs s).1,
      (x.isQuiet = true ∨ x.isQuit = true) ∧
      (∀ c t, x = Event.Shutdown c t → c = ctx ∧ ∃ sg ∈ sigs, t = sg.received + sg.delay) ∧
      (∀ c, x = Event.Exit c → c = 1) := by
  intro x hx
  have hquiet : ∀ y, y.isQuiet = true → ∀ c, y ≠ Event.Exit c := by
    intro y hy c hc
    rw [hc] at hy
    cases hy
  have hquit : ∀ y, y.isQuit = true → ∀ c t, y ≠ Event.Shutdown c t := by
    intro y hy c t hc
    rw [hc] at hy
    cases hy
  rcases handlerLoop_cases w fuel ctx sigs s with ⟨_, h⟩ | ⟨pre, bad, post, err, hs, _, _, h⟩
  · rw [h] at hx
    obtain ⟨h1, h2⟩ := okTrace_events ctx sigs x hx
    exact ⟨Or.inl h1, h2, fun c hc => absurd hc (hquiet x h1 c)⟩
  · rw [h] at hx
    simp only [List.mem_append, List.mem_cons] at hx
    rcases hx with hx | hx | hx | hx
    · obtain ⟨h1, h2⟩ := okTrace_events ctx pre x hx
      refine ⟨Or.inl h1, fun c t hc => ?_, fun c hc => absurd hc (hquiet x h1 c)⟩
      obtain ⟨h3, sg, h4, h5⟩ := h2 c t hc
      exact ⟨h3, sg, by rw [hs]; exact List.mem_append_left _ h4, h5⟩
    · obtain ⟨h1, h2⟩ := okTrace_events ctx [bad] x (by simpa [okTrace] using hx)
      refine ⟨Or.inl h1, fun c t hc => ?_, fun c hc => absurd hc (hquiet x h1 c)⟩
      obtain ⟨h3, sg, h4, h5⟩ := h2 c t hc
      refine ⟨h3, sg, ?_, h5⟩
      rw [hs]
      simp only [List.mem_singleton] at h4
      rw [h4]; simp
    · subst hx
      exact ⟨Or.inl rfl, fun c t hc => (by cases hc), fun c hc => (by cases hc)⟩
    · have h1 := quitAndExit_events w fuel s x hx
      refine ⟨Or.inr h1, fun c t hc => absurd hc (hquit x h1 c t), fun c hc => ?_⟩
      rw [hc] at hx
      exact quitAndExit_exit_one w fuel s c hx

/-- In the handler goroutine every `os.Exit` comes after a `FlushAll`. -/
theorem handlerLoop_guarded {σ : Type} (w : Collab σ) (fuel : Nat) (ctx : Context)
    (sigs : List Sig) (s : σ) :
    ∀ a c b, (handlerLoop w fuel ctx sigs s).1 = a ++ Event.Exit c :: b →
      Event.FlushAll ∈ a := by
  rcases handlerLoop_cases w fuel ctx sigs s with ⟨_, h⟩ | ⟨pre, bad, post, err, _, _, _, h⟩
  · rw [h]
    exact guarded_of_no_exit _ (okTrace_exitCode ctx sigs)
  · rw [h]
    have : okTrace ctx pre ++ (sigHead ctx bad ++ Event.LogShutdownError err ::
        (quitAndExit w fuel s).1) =
        (okTrace ctx pre ++ sigHead ctx bad ++ [Event.LogShutdownError err]) ++
          (quitAndExit w fuel s).1 := by simp
    show ∀ a c b, okTrace ctx pre ++ (sigHead ctx bad ++ Event.LogShutdownError err ::
        (quitAndExit w fuel s).1) = a ++ Event.Exit c :: b → Event.FlushAll ∈ a
    rw [this]
    apply guarded_append _ _ _ (quitAndExit_guarded w fuel s)
    intro x hx
    simp only [List.mem_append, List.mem_singleton] at hx
    rcases hx with (hx | hx) | hx
    · exact okTrace_exitCode ctx pre x hx
    · exact sigHead_exitCode ctx bad x hx
    · subst hx; rfl

theorem mainScript_cases {σ : Type} (w : Collab σ) (fuel : Nat) (start : Option (Option String))
    (s : σ) :
    (start = none ∧ mainScript w fuel start s = ([Event.SrvStart], Outcome.serving)) ∨
    (start = some none ∧ mainScript w fuel start s =
      ([Event.SrvStart, Event.StartReturned none, Event.Cancel], Outcome.returned)) ∨
    (∃ err, start = some (some err) ∧ mainScript w fuel start s =
      ([Event.SrvStart, Event.StartReturned (some err), Event.LogListenAndServe err] ++
        (quitAndExit w fuel s).1, (quitAndExit w fuel s).2)) := by
  cases start with
  | none => exact Or.inl ⟨rfl, rfl⟩
  | some r =>
    cases r with
    | none => exact Or.inr (Or.inl ⟨rfl, rfl⟩)
    | some err => exact Or.inr (Or.inr ⟨err, rfl, rfl⟩)

/-- What the goroutine of `main` does after the `go` statement. -/
theorem mainScript_events {σ : Type} (w : Collab σ) (fuel : Nat)
    (start : Option (Option String)) (s : σ) :
    ∀ x ∈ (mainScript w fuel start s).1,
      (x.isQuiet = true ∨ x.isQuit = true) ∧ (∀ c t, x ≠ Event.Shutdown c t) ∧
      (∀ c, x = Event.Exit c → c = 1) := by
  intro x hx
  rcases mainScript_cases w fuel start s with ⟨_, h⟩ | ⟨_, h⟩ | ⟨err, _, h⟩
  · rw [h] at hx
    simp at hx
    subst hx
    exact ⟨Or.inl rfl, fun c t hc => (by cases hc), fun c hc => (by cases hc)⟩
  · rw [h] at hx
    simp at hx
    rcases hx with hx | hx | hx <;> subst hx <;>
      exact ⟨Or.inl rfl, fun c t hc => (by cases hc), fun c hc => (by cases hc)⟩
  · rw [h] at hx
    simp only [List.mem_append, List.mem_cons, List.not_mem_nil, or_false] at hx
    rcases hx with (hx | hx | hx) | hx
    · subst hx
      exact ⟨Or.inl rfl, fun c t hc => (by cases hc), fun c hc => (by cases hc)⟩
    · subst hx
      exact ⟨Or.inl rfl, fun c t hc => (by cases hc), fun c hc => (by cases hc)⟩
    · subst hx
      exact ⟨Or.inl rfl, fun c t hc => (by cases hc), fun c hc => (by cases hc)⟩
    · have h1 := quitAndExit_events w fuel s x hx
      refine ⟨Or.inr h1, fun c t hc => ?_, fun c hc => ?_⟩
      · rw [hc] at h1; cases h1
      · rw [hc] at hx
        exact quitAndExit_exit_one w fuel s c hx

/-- In the goroutine of `main` every `os.Exit` comes after a `FlushAll`. -/
theorem mainScript_guarded {σ : Type} (w : Collab σ) (fuel : Nat)
    (start : Option (Option String)) (s : σ) :
    ∀ a c b, (mainScript w fuel start s).1 = a ++ Event.Exit c :: b → Event.FlushAll ∈ a := by
  rcases mainScript_cases w fuel start s with ⟨_, h⟩ | ⟨_, h⟩ | ⟨err, _, h⟩
  · rw [h]
    exact guarded_of_no_exit _ (by intro x hx; simp at hx; subst hx; rfl)
  · rw [h]
    exact guarded_of_no_exit _ (by
      intro x hx
      simp at hx
      rcases hx with hx | hx | hx <;> subst hx <;> rfl)
  · rw [h]
    apply guarded_append _ _ _ (quitAndExit_guarded w fuel s)
    intro x hx
    simp at hx
    rcases hx with hx | hx | hx <;> subst hx <;> rfl

theorem mainScript_returned {σ : Type} (w : Collab σ) (fuel : Nat)
    (start : Option (Option String)) (s : σ)
    (h : (mainScript w fuel start s).2 = Outcome.returned) : start = some none := by
  rcases mainScript_cases w fuel start s with ⟨_, h2⟩ | ⟨h1, _⟩ | ⟨err, _, h2⟩
  · rw [h2] at h; cases h
  · exact h1
  · rw [h2] at h
    rcases quitAndExit_cases w fuel s with ⟨q, _, hx⟩ | ⟨_, _, hx⟩
    · rw [hx] at h; cases h
    · rcases hx with hx | hx <;> rw [hx] at h <;> cases h

/-! ## The function `main` -/

theorem startup_events (cnf : config) (now : Nat) :
    ∀ x ∈ startup cnf now, x.isSetup = true := by
  intro x hx
  simp only [startup, List.mem_append, List.mem_cons, List.mem_map, List.mem_singleton,
    List.not_mem_nil, or_false] at hx
  rcases hx with ((h | h | h | h) | ⟨u, _, h⟩) | h | h | h | h | h
  all_goals subst h; rfl

theorem main_ok {σ : Type} (w : Collab σ) (fuel : Nat) (e : Env) (cnf : config) (sh sm : σ)
    (hv : e.arg0 ≠ "version") (hp : e.parse = Except.ok cnf) :
    main w fuel e sh sm = (Event.SetLogOutput :: Event.FlagParse :: Event.EnvParse ::
      (serve w fuel cnf e sh sm).1, (serve w fuel cnf e sh sm).2) := by
  simp [main, hv, hp, failOnError]

/-- The trace of `serve`: the construction events, the steps the handler takes first,
then the two goroutines as scheduled. -/
theorem serve_early {σ : Type} (w : Collab σ) (fuel : Nat) (cnf : config) (e : Env)
    (sh sm : σ) :
    ∃ rest, (serve w fuel cnf e sh sm).1 =
      startup cnf e.now ++ (early (WithTimeout e.now (5 * Second)) e.signals ++ rest) := by
  obtain ⟨hrest, hr⟩ :=
    handlerLoop_early w fuel (WithTimeout e.now (5 * Second)) e.late sh e.signals
  refine ⟨(interleave (decide ((mainScript w fuel e.start sm).2 = Outcome.returned))
    e.schedule hrest (mainScript w fuel e.start sm).1).1, ?_⟩
  show startup cnf e.now ++ (interleave _ _ (handlerLoop w fuel (WithTimeout e.now (5 * Second))
    (e.signals ++ e.late) sh).1 _).1 = _
  rw [hr, interleave_handler_first _ _ _ _ _ (early_exitCode _ _)]

/-- Past the construction events every event of `serve` belongs to `srv.Start()`, to
signal handling or to `SafeQuit; os.Exit(1)`; every `Shutdown` call carries the
context of `main` and stems from a signal of the environment, and every `os.Exit` has
status 1. -/
theorem serve_events {σ : Type} (w : Collab σ) (fuel : Nat) (cnf : config) (e : Env)
    (sh sm : σ) :
    ∃ dyn, (serve w fuel cnf e sh sm).1 = startup cnf e.now ++ dyn ∧
      ∀ x ∈ dyn, (x.isQuiet = true ∨ x.isQuit = true) ∧
        (∀ c t, x = Event.Shutdown c t → c = WithTimeout e.now (5 * Second) ∧
          ∃ sg ∈ e.signals ++ e.late, t = sg.received + sg.delay) ∧
        (∀ c, x = Event.Exit c → c = 1) := by
  refine ⟨_, rfl, ?_⟩
  intro x hx
  rcases interleave_mem _ _ _ _ x hx with h | h
  · exact handlerLoop_events w fuel _ _ sh x h
  · obtain ⟨h1, h2, h3⟩ := mainScript_events w fuel e.start sm x h
    exact ⟨h1, fun c t hc => absurd hc (h2 c t), h3⟩

theorem main_shape {σ : Type} (w : Collab σ) (fuel : Nat) (e : Env) (cnf : config) (sh sm : σ)
    (hv : e.arg0 ≠ "version") (hp : e.parse = Except.ok cnf) :
    ∃ dyn, (main w fuel e sh sm).1 = Event.SetLogOutput :: Event.FlagParse :: Event.EnvParse ::
        (startup cnf e.now ++ dyn) ∧
      ∀ x ∈ dyn, (x.isQuiet = true ∨ x.isQuit = true) ∧
        (∀ c t, x = Event.Shutdown c t → c = WithTimeout e.now (5 * Second) ∧
          ∃ sg ∈ e.signals ++ e.late, t = sg.received + sg.delay) ∧
        (∀ c, x = Event.Exit c → c = 1) := by
  obtain ⟨dyn, h1, h2⟩ := serve_events w fuel cnf e sh sm
  exact ⟨dyn, by rw [main_ok w fuel e cnf sh sm hv hp, h1], h2⟩

/-- Past configuration parsing the process ends through `os.Exit` only after a
`FlushAll`, and ends by the return of `main` only when `srv.Start()` returned `nil`. -/
theorem main_ends_without_flush_only_after_start_nil {σ : Type} (w : Collab σ) (fuel : Nat)
    (e : Env) (cnf : config) (sh sm : σ) (hv : e.arg0 ≠ "version")
    (hp : e.parse = Except.ok cnf) :
    (∀ c, (main w fuel e sh sm).2 = Outcome.exited c →
      Event.FlushAll ∈ (main w fuel e sh sm).1) ∧
    ((main w fuel e sh sm).2 = Outcome.returned → e.start = some none) := by
  rw [main_ok w fuel e cnf sh sm hv hp]
  constructor
  · intro c hc
    have := interleave_exit_flushed _ _ _ _ False
      (fun a c b hab => Or.inr (handlerLoop_guarded w fuel (WithTimeout e.now (5 * Second))
        (e.signals ++ e.late) sh a c b hab))
      (fun a c b hab => Or.inr (mainScript_guarded w fuel e.start sm a c b hab)) c hc
    rcases this with h | h
    · exact absurd h id
    · show Event.FlushAll ∈ Event.SetLogOutput :: Event.FlagParse :: Event.EnvParse ::
        (startup cnf e.now ++ _)
      simp only [List.mem_cons, List.mem_append]
      exact Or.inr (Or.inr (Or.inr (Or.inr h)))
  · intro hr
    have := interleave_returned _ _ _ _ hr
    exact mainScript_returned w fuel e.start sm (of_decide_eq_true this)

theorem filterMap_addedServer_map (l : List String) :
    (l.map Event.AddServer).filterMap Event.addedServer = l := by
  induction l with
  | nil => rfl
  | cons x xs ih => simp [List.filterMap_cons, Event.addedServer, ih]

theorem filterMap_addedServer_nil (l : List Event)
    (h : ∀ x ∈ l, ∀ u, x ≠ Event.AddServer u) : l.filterMap Event.addedServer = [] := by
  induction l with
  | nil => rfl
  | cons x xs ih =>
    have hx := h x (List.mem_cons_self _ _)
    have hxs := ih (fun y hy => h y (List.mem_cons_of_mem _ hy))
    cases x <;> simp_all [List.filterMap_cons, Event.addedServer]

/-- Past the construction events every event of `main` belongs to `srv.Start()`, to
signal handling or to `SafeQuit(collect, sender); os.Exit(1)`. -/
theorem main_after_startup {σ : Type} (w : Collab σ) (fuel : Nat) (e : Env) (cnf : config)
    (sh sm : σ) (hv : e.arg0 ≠ "version") (hp : e.parse = Except.ok cnf) :
    ∃ dyn, (main w fuel e sh sm).1 = Event.SetLogOutput :: Event.FlagParse :: Event.EnvParse ::
        (startup cnf e.now ++ dyn) ∧ ∀ x ∈ dyn, x.isSetup = false := by
  obtain ⟨dyn, h1, h2⟩ := main_shape w fuel e cnf sh sm hv hp
  refine ⟨dyn, h1, ?_⟩
  intro x hx
  rcases (h2 x hx).1 with h | h
  · cases x <;> simp [Event.isQuiet] at h <;> rfl
  · cases x <;> simp [Event.isQuit] at h <;> rfl

/-- The trace of `main` past configuration parsing, cut at the construction of the Collector. -/
theorem main_cut_at_collector {σ : Type} (w : Collab σ) (fuel : Nat) (e : Env) (cnf : config)
    (sh sm : σ) (hv : e.arg0 ≠ "version") (hp : e.parse = Except.ok cnf) :
    ∃ dyn, (main w fuel e sh sm).1 =
      ([Event.SetLogOutput, Event.FlagParse, Event.EnvParse, Event.NewFileDumper,
        Event.SetDumperPath cnf.DumpDir, Event.NewClickhouse cnf.ClickhouseDownTimeout,
        Event.SetSenderDumper] ++ cnf.ClickhouseServers.map Event.AddServer) ++
      Event.NewCollector cnf.FlushCount cnf.FlushInterval ::
        ([Event.SignalNotify, Event.InitServer (":" ++ toString cnf.Port) cnf.Debug,
          Event.MakeContext (WithTimeout e.now (5 * Second)), Event.GoHandler] ++ dyn) ∧
      ∀ x ∈ dyn, x.isSetup = false := by
  obtain ⟨dyn, h1, h2⟩ := main_after_startup w fuel e cnf sh sm hv hp
  exact ⟨dyn, by rw [h1]; simp [startup], h2⟩

/-- C6: past configuration parsing, the `AddServer` calls of `main` carry exactly
the configured `ClickhouseServers`, one call per element, in list order, and all of
them come before the construction of the Collector, after which no server is
registered. -/
theorem main_registers_servers_in_order {σ : Type} (w : Collab σ) (fuel : Nat) (e : Env)
    (cnf : config) (sh sm : σ) (hv : e.arg0 ≠ "version") (hp : e.parse = Except.ok cnf) :
    (main w fuel e sh sm).1.filterMap Event.addedServer = cnf.ClickhouseServers ∧
    ∃ a b, (main w fuel e sh sm).1 =
        a ++ Event.NewCollector cnf.FlushCount cnf.FlushInterval :: b ∧
      (∀ c i, Event.NewCollector c i ∉ a) ∧ (∀ c i, Event.NewCollector c i ∉ b) ∧
      a.filterMap Event.addedServer = cnf.ClickhouseServers ∧
      b.filterMap Event.addedServer = [] := by
  obtain ⟨dyn, h1, h2⟩ := main_cut_at_collector w fuel e cnf sh sm hv hp
  have hdyn : dyn.filterMap Event.addedServer = [] := by
    apply filterMap_addedServer_nil
    intro x hx u hu
    have := h2 x hx
    rw [hu] at this
    cases this
  have ha : ([Event.SetLogOutput, Event.FlagParse, Event.EnvParse, Event.NewFileDumper,
      Event.SetDumperPath cnf.DumpDir, Event.NewClickhouse cnf.ClickhouseDownTimeout,
      Event.SetSenderDumper] ++ cnf.ClickhouseServers.map Event.AddServer).filterMap
      Event.addedServer = cnf.ClickhouseServers := by
    rw [List.filterMap_append, filterMap_addedServer_map]
    rfl
  have hb : ([Event.SignalNotify, Event.InitServer (":" ++ toString cnf.Port) cnf.Debug,
      Event.MakeContext (WithTimeout e.now (5 * Second)), Event.GoHandler] ++ dyn).filterMap Event.addedServer = [] := by
    rw [List.filterMap_append, hdyn]
    rfl
  refine ⟨?_, _, _, h1, ?_, ?_, ha, hb⟩
  · rw [h1, List.filterMap_append, ha, List.filterMap_cons, hb]
    simp [Event.addedServer]
  · intro c i hm
    simp at hm
  · intro c i hm
    simp only [List.mem_append, List.mem_cons, List.not_mem_nil, or_false] at hm
    rcases hm with (h | h | h | h) | h
    · cases h
    · cases h
    · cases h
    · cases h
    · have := h2 _ h
      cases this

/-- A witness of C6: with two configured servers the registrations are those two, in order. -/
theorem main_registers_servers_in_order_witness :
    quietStop.arg0 ≠ "version" ∧ quietStop.parse = Except.ok sampleConfig ∧
      (main idle 1 quietStop () ()).1.filterMap Event.addedServer =
        ["http://ch1:8123", "http://ch2:8123"] :=
  ⟨by decide, rfl,
    (main_registers_servers_in_order idle 1 quietStop sampleConfig () () (by decide) rfl).1⟩

/-- C7: past configuration parsing `main` starts with the construction of the dumper
with path `DumpDir`, of the sender with `ClickhouseDownTimeout`, the attachment of
the dumper to the sender, the server registrations and then
`NewCollector(sender, FlushCount, FlushInterval)`; these are the only values ever
passed to `dumper.Path`, `NewClickhouse` and `NewCollector`, and the dumper is never
attached after the Collector exists. -/
theorem main_wires_configuration {σ : Type} (w : Collab σ) (fuel : Nat) (e : Env)
    (cnf : config) (sh sm : σ) (hv : e.arg0 ≠ "version") (hp : e.parse = Except.ok cnf) :
    (∃ rest, (main w fuel e sh sm).1 =
      ([Event.SetLogOutput, Event.FlagParse, Event.EnvParse, Event.NewFileDumper,
        Event.SetDumperPath cnf.DumpDir, Event.NewClickhouse cnf.ClickhouseDownTimeout,
        Event.SetSenderDumper] ++ cnf.ClickhouseServers.map Event.AddServer) ++
      Event.NewCollector cnf.FlushCount cnf.FlushInterval :: rest ∧
      Event.SetSenderDumper ∉ rest ∧ ∀ c i, Event.NewCollector c i ∉ rest) ∧
    (∀ d, Event.NewClickhouse d ∈ (main w fuel e sh sm).1 ↔ d = cnf.ClickhouseDownTimeout) ∧
    (∀ c i, Event.NewCollector c i ∈ (main w fuel e sh sm).1 ↔
      c = cnf.FlushCount ∧ i = cnf.FlushInterval) ∧
    (∀ path, Event.SetDumperPath path ∈ (main w fuel e sh sm).1 ↔ path = cnf.DumpDir) := by
  obtain ⟨dyn, h1, h2⟩ := main_cut_at_collector w fuel e cnf sh sm hv hp
  have hno : ∀ x, x.isSetup = true → x ∉ dyn := by
    intro x hx hm
    rw [h2 x hm] at hx
    cases hx
  refine ⟨⟨_, h1, ?_, ?_⟩, ?_, ?_, ?_⟩
  · intro hm
    simp only [List.mem_append, List.mem_cons, List.not_mem_nil, or_false] at hm
    rcases hm with (h | h | h | h) | h
    · cases h
    · cases h
    · cases h
    · cases h
    · exact hno Event.SetSenderDumper rfl h
  · intro c i hm
    simp only [List.mem_append, List.mem_cons, List.not_mem_nil, or_false] at hm
    rcases hm with (h | h | h | h) | h
    · cases h
    · cases h
    · cases h
    · cases h
    · exact hno (Event.NewCollector c i) rfl h
  · intro d
    rw [h1]
    constructor
    · intro hm
      simp only [List.mem_append, List.mem_cons, List.mem_map, List.not_mem_nil, or_false,
        reduceCtorEq, false_or, and_false, exists_false, Event.NewClickhouse.injEq] at hm
      rcases hm with h | h
      · exact h
      · exact absurd h (hno _ rfl)
    · intro hd
      subst hd
      simp
  · intro c i
    rw [h1]
    constructor
    · intro hm
      simp only [List.mem_append, List.mem_cons, List.mem_map, List.not_mem_nil, or_false,
        reduceCtorEq, false_or, and_false, exists_false, Event.NewCollector.injEq] at hm
      rcases hm with h | h
      · exact h
      · exact absurd h (hno _ rfl)
    · rintro ⟨hc, hi⟩
      subst hc; subst hi
      simp
  · intro path
    rw [h1]
    constructor
    · intro hm
      simp only [List.mem_append, List.mem_cons, List.mem_map, List.not_mem_nil, or_false,
        reduceCtorEq, false_or, and_false, exists_false, Event.SetDumperPath.injEq] at hm
      rcases hm with h | h
      · exact h
      · exact absurd h (hno _ rfl)
    · intro hd
      subst hd
      simp

/-- A witness of C7: the sample configuration reaches the constructors unchanged. -/
theorem main_wires_configuration_witness :
    quietStop.arg0 ≠ "version" ∧ quietStop.parse = Except.ok sampleConfig ∧
      (Event.NewCollector 10000 1000 ∈ (main idle 1 quietStop () ()).1 ↔
        (10000 : Int) = sampleConfig.FlushCount ∧ (1000 : Int) = sampleConfig.FlushInterval) :=
  ⟨by decide, rfl,
    (main_wires_configuration idle 1 quietStop sampleConfig () () (by decide) rfl).2.2.1
      10000 1000⟩

/-- C9: the context handed to `srv.Shutdown` is the one `main` creates before it
starts the handler and the server, with deadline five seconds after that clock
reading `e.now`; every `Shutdown` call of the execution carries this same context,
whatever the time of the signal, and for a signal received more than five seconds
after `e.now` the context is already expired when `srv.Shutdown` is called. -/
theorem shutdown_context_fixed_at_startup {σ : Type} (w : Collab σ) (fuel : Nat) (e : Env)
    (cnf : config) (sh sm : σ) (hv : e.arg0 ≠ "version") (hp : e.parse = Except.ok cnf) :
    (∀ ctx, Event.MakeContext ctx ∈ (main w fuel e sh sm).1 ↔
      ctx = Context.mk (e.now + 5 * Second)) ∧
    (∀ ctx t, Event.Shutdown ctx t ∈ (main w fuel e sh sm).1 →
      ctx = Context.mk (e.now + 5 * Second) ∧
        ∃ sg ∈ e.signals ++ e.late, t = sg.received + sg.delay ∧
          (e.now + 5 * Second < sg.received → ctx.expiredAt t = true)) ∧
    (∀ pre sg post, e.signals = pre ++ sg :: post → (∀ x ∈ pre, x.shutdownErr = none) →
      Event.Shutdown (Context.mk (e.now + 5 * Second)) (sg.received + sg.delay) ∈
        (main w fuel e sh sm).1 ∧
      (e.now + 5 * Second < sg.received →
        (Context.mk (e.now + 5 * Second)).expiredAt (sg.received + sg.delay) = true)) := by
  refine ⟨?_, ?_, ?_⟩
  · intro ctx
    obtain ⟨dyn, h1, h2⟩ := main_cut_at_collector w fuel e cnf sh sm hv hp
    rw [h1]
    constructor
    · intro hm
      simp only [List.mem_append, List.mem_cons, List.mem_map, List.not_mem_nil, or_false,
        reduceCtorEq, false_or, and_false, exists_false, Event.MakeContext.injEq] at hm
      rcases hm with h | h
      · exact h
      · have := h2 _ h
        cases this
    · intro hc
      subst hc
      simp [WithTimeout]
  · intro ctx t hm
    obtain ⟨dyn, ht, hq⟩ := main_shape w fuel e cnf sh sm hv hp
    rw [ht] at hm
    simp only [List.mem_cons, List.mem_append, reduceCtorEq, false_or] at hm
    rcases hm with hm | hm
    · have := startup_events _ _ _ hm
      cases this
    · obtain ⟨hc, sg, hsg, hts⟩ := (hq _ hm).2.1 ctx t rfl
      refine ⟨hc, sg, hsg, hts, ?_⟩
      intro hlate
      rw [hc, hts]
      simp only [WithTimeout, Context.expiredAt, decide_eq_true_eq]
      omega
  · intro pre sg post hsig hpre
    constructor
    · rw [main_ok w fuel e cnf sh sm hv hp]
      obtain ⟨rest, hr⟩ := serve_early w fuel cnf e sh sm
      rw [hr, hsig]
      have := early_mem (WithTimeout e.now (5 * Second)) pre post sg hpre
      simp only [List.mem_cons, List.mem_append]
      exact Or.inr (Or.inr (Or.inr (Or.inr (Or.inl this))))
    · intro hlate
      simp only [Context.expiredAt, decide_eq_true_eq]
      omega

/-- A witness of C9: a signal received six seconds after the context was created
meets an expired context. -/
theorem shutdown_context_fixed_at_startup_witness :
    failedStop.arg0 ≠ "version" ∧ failedStop.parse = Except.ok sampleConfig ∧
      Event.Shutdown (Context.mk (0 + 5 * Second)) (6 * Second + 0) ∈
        (main idle 1 failedStop () ()).1 ∧
      (Context.mk (0 + 5 * Second)).expiredAt (6 * Second + 0) = true :=
  ⟨by decide, rfl,
    ((shutdown_context_fixed_at_startup idle 1 failedStop sampleConfig () () (by decide) rfl).2.2
      [] (lateSignal (some "context deadline exceeded")) [] rfl (by simp)).1,
    ((shutdown_context_fixed_at_startup idle 1 failedStop sampleConfig () () (by decide) rfl).2.2
      [] (lateSignal (some "context deadline exceeded")) [] rfl (by simp)).2 (by decide)⟩

end ClickhouseBulk
